import Mathlib

/-!
Verification of the proton spreadsheet exporter (sample/tools/proton.py).

The Python source is shallowly embedded: each Python function of interest is
translated into an executable Lean definition of the same name.  Cell contents
are modelled as strings (the spec fixes the sheet-reader interface to
pre-stringified cell text).  Python exceptions are modelled with the Except
monad; Python float parsing is modelled exactly over the rationals,
represented as unreduced numerator/denominator pairs so that every
arithmetic step is kernel-computable (IEEE rounding, inf/nan and
underscore digit separators are outside of the model).
-/

namespace Proton

/-- An exact rational float value: numerator over a positive power-of-ten
denominator (not necessarily reduced; plain integer arithmetic keeps every
operation kernel-computable). -/
structure PyRat where
  num : Int
  den : Nat
deriving Repr, DecidableEq

/-- Python values as produced by the exporter: ints, floats (as exact
rationals), strings, booleans, lists, and insertion-ordered dicts. -/
inductive PyVal where
  | vint (n : Int)
  | vfloat (q : PyRat)
  | vstr (s : String)
  | vbool (b : Bool)
  | vlist (xs : List PyVal)
  | vdict (kvs : List (String × PyVal))
deriving Repr

/-- The failure modes of the embedded code.  ValueError messages are
abstracted into their kind; IndexError / KeyError / TypeError are Python
built-in exceptions escaping uncaught. -/
inductive PyErr where
  | indexError
  | keyError (k : String)
  | typeError
  | unpackError
  | floatValueError (s : String)
  | illegalType (t : String)
  | illegalIdentifier (n : String)
  | illegalBool (v : String)
  | duplicateRoot (root : String)
  | duplicatePath (p : String)
  | markNotFound (mark : String)
  | fieldNotFound (f : String)
  | workbookMissing (p : String)
  | outOfFuel
deriving Repr, DecidableEq

/-- Characters of Python string.whitespace (the set used by str.strip and
the whitespace character classes in the source's regexes). -/
def isPySpace (c : Char) : Bool :=
  c = ' ' ∨ c = '\t' ∨ c = '\n' ∨ c = '\r' ∨ c = '\x0b' ∨ c = '\x0c'

/-- ASCII letter, the class [a-zA-Z] of the source's regexes. -/
def isAsciiLetter (c : Char) : Bool :=
  ('a' ≤ c ∧ c ≤ 'z') ∨ ('A' ≤ c ∧ c ≤ 'Z')

/-- ASCII digit. -/
def isAsciiDigit (c : Char) : Bool := '0' ≤ c ∧ c ≤ '9'

/-- Word character, the regex class backslash-w (restricted to ASCII; the
identifiers and type strings the exporter handles are ASCII). -/
def isWordChar (c : Char) : Bool := isAsciiLetter c ∨ isAsciiDigit c ∨ c = '_'

/-- Python str.strip with an explicit character predicate: drop matching
characters from both ends. -/
def pyStripP (p : Char → Bool) (s : String) : String :=
  (((s.toList.dropWhile p).reverse.dropWhile p).reverse).asString

/-- Python str.strip() with no arguments (strip whitespace). -/
def pyStripWs (s : String) : String := pyStripP isPySpace s

/-- Python str.lower, restricted to ASCII case folding. -/
def pyLower (s : String) : String := (s.toList.map Char.toLower).asString

/-- Python str.isspace(): true iff the string is non-empty and all of its
characters are whitespace. -/
def pyIsSpace (s : String) : Bool := s.toList ≠ [] ∧ s.toList.all isPySpace

/-- re.split with a single-character class: split at every occurrence of a
separator character, keeping empty pieces (re.split of a bare class). -/
def pySplitCharsAux (sep : Char → Bool) : List Char → List Char → List String
  | [], acc => [acc.reverse.asString]
  | c :: rest, acc =>
    if sep c then acc.reverse.asString :: pySplitCharsAux sep rest []
    else pySplitCharsAux sep rest (c :: acc)

/-- Split a string on every separator character, keeping empty pieces. -/
def pySplitChars (sep : Char → Bool) (s : String) : List String :=
  pySplitCharsAux sep s.toList []

mutual

/-- re.split with a one-or-more character-class pattern: split on maximal
runs of separator characters (accumulating the current token). -/
def pySplitRunsAux (sep : Char → Bool) : List Char → List Char → List String
  | [], acc => [acc.reverse.asString]
  | c :: rest, acc =>
    if sep c then acc.reverse.asString :: pySplitRunsRun sep rest
    else pySplitRunsAux sep rest (c :: acc)

/-- Continuation of a separator run: skip further separators, then resume
token accumulation. -/
def pySplitRunsRun (sep : Char → Bool) : List Char → List String
  | [] => [""]
  | c :: rest =>
    if sep c then pySplitRunsRun sep rest
    else pySplitRunsAux sep rest [c]

end

/-- Split a string on maximal runs of separator characters. -/
def pySplitRuns (sep : Char → Bool) (s : String) : List String :=
  pySplitRunsAux sep s.toList []

/-- splitspace from the source: re.split on whitespace runs after str.strip. -/
def splitspace (s : String) : List String :=
  pySplitRuns isPySpace (pyStripWs s)

/-- Python list/str prefix test. -/
def listStartsWith : List Char → List Char → Bool
  | [], _ => true
  | _ :: _, [] => false
  | a :: as, b :: bs => a = b ∧ listStartsWith as bs

/-- Python substring containment (the expression s in t on strings). -/
def isSubstr (needle hay : List Char) : Bool :=
  (List.range (hay.length + 1)).any fun i => listStartsWith needle (hay.drop i)

/-- Python str.endswith: suffix test via reversed prefix matching. -/
def pyEndsWith (s suffix : String) : Bool :=
  listStartsWith suffix.data.reverse s.data.reverse

/-- Python sequence indexing with negative-index support; raises IndexError
when out of range. -/
def pyIndex (xs : List String) (i : Int) : Except PyErr String :=
  if i ≥ 0 then
    match xs.get? i.toNat with
    | some v => .ok v
    | none => .error .indexError
  else
    match xs.get? (xs.length - (-i).toNat) with
    | some v => if (-i).toNat ≤ xs.length then .ok v else .error .indexError
    | none => .error .indexError

/-- Digits to a natural number. -/
def digitsToNat (ds : List Char) : Nat :=
  ds.foldl (fun a c => a * 10 + (c.toNat - '0'.toNat)) 0

/-- Python float(s) over decimal literals, as an exact rational.  Accepts
optional surrounding whitespace, an optional sign, and the forms
d+, d+., d+.d+, .d+, each with an optional exponent part.  IEEE rounding,
inf/nan and underscore separators are outside of the model. -/
def pyParseFloat (s : String) : Option PyRat :=
  let cs := s.toList.dropWhile isPySpace
  let cs := (cs.reverse.dropWhile isPySpace).reverse
  let (sgn, cs) :=
    match cs with
    | '+' :: rest => ((1 : Int), rest)
    | '-' :: rest => ((-1 : Int), rest)
    | rest => ((1 : Int), rest)
  let intPart := cs.takeWhile isAsciiDigit
  let cs := cs.drop intPart.length
  let (fracPart, cs) :=
    match cs with
    | '.' :: rest =>
      let f := rest.takeWhile isAsciiDigit
      (some f, rest.drop f.length)
    | rest => (none, rest)
  -- at least one digit must occur in the mantissa
  if intPart = [] ∧ (fracPart.getD []) = [] then none
  else
    let frac := fracPart.getD []
    let mnum : Int :=
      sgn * ((digitsToNat intPart : Int) * (10 : Int) ^ frac.length +
        (digitsToNat frac : Int))
    let mden : Nat := 10 ^ frac.length
    match cs with
    | [] => some ⟨mnum, mden⟩
    | 'e' :: rest => pyParseFloatExp mnum mden rest
    | 'E' :: rest => pyParseFloatExp mnum mden rest
    | _ => none
where
  /-- Exponent part: optional sign then one or more digits, to end. -/
  pyParseFloatExp (mnum : Int) (mden : Nat) (cs : List Char) :
      Option PyRat :=
    let (esgn, cs) :=
      match cs with
      | '+' :: rest => ((1 : Int), rest)
      | '-' :: rest => ((-1 : Int), rest)
      | rest => ((1 : Int), rest)
    let eds := cs.takeWhile isAsciiDigit
    if eds = [] ∨ cs.drop eds.length ≠ [] then none
    else
      let e := digitsToNat eds
      if esgn ≥ 0 then some ⟨mnum * (10 : Int) ^ e, mden⟩
      else some ⟨mnum, mden * 10 ^ e⟩

/-- Python int(q) on a float value: truncation toward zero (Int.div is
T-division; the denominator is a positive power of ten by construction). -/
def pytrunc (q : PyRat) : Int := Int.div q.num (q.den : Int)

/-- re.match of the source's identifier pattern: caret underscore bar
[a-zA-Z] backslash-w plus dollar.  By regex precedence the alternation is
(start-anchored underscore) OR ([a-zA-Z] then one or more word characters
up to the end, where the dollar anchor also matches just before one final
newline). -/
def pyIdentMatch (name : String) : Bool :=
  match name.toList with
  | [] => false
  | c :: rest =>
    c = '_' ∨
      (isAsciiLetter c ∧
        (let body := if rest.getLast? = some '\n' then rest.dropLast else rest
         body ≠ [] ∧ body.all isWordChar))

/-- fillvalue from the source: append to a list parent, otherwise (dict
parent) validate the name in schema mode and assign the key.  Python dict
assignment keeps the position of an existing key. -/
def dictSet : List (String × PyVal) → String → PyVal → List (String × PyVal)
  | [], k, v => [(k, v)]
  | (k0, v0) :: rest, k, v =>
    if k0 = k then (k, v) :: rest else (k0, v0) :: dictSet rest k v

/-- Ordered-dict lookup (Python d[k], returning none when the key is absent). -/
def dictGet : List (String × PyVal) → String → Option PyVal
  | [], _ => none
  | (k0, v0) :: rest, k => if k0 = k then some v0 else dictGet rest k

/-- A parent container being filled: a Python list or an ordered dict. -/
inductive PyCont where
  | clist (xs : List PyVal)
  | cdict (kvs : List (String × PyVal))
deriving Repr

/-- fillvalue(parent, name, value, isschema) from the source. -/
def fillvalue (parent : PyCont) (name : String) (value : PyVal)
    (isschema : Bool) : Except PyErr PyCont :=
  match parent with
  | .clist xs => .ok (.clist (xs ++ [value]))
  | .cdict kvs =>
    if isschema ∧ ¬ pyIdentMatch name then .error (.illegalIdentifier name)
    else .ok (.cdict (dictSet kvs name value))

/-- Separator class of the sign filter: slash, backslash, comma, space,
colon. -/
def isSignSep (c : Char) : Bool :=
  c = '/' ∨ c = '\\' ∨ c = ',' ∨ c = ' ' ∨ c = ':'

/-- issignmatch(signarg, sign) from the source.  signarg is the raw -s
option string (or None); the membership test s in signarg is Python
substring containment. -/
def issignmatch (signarg : Option String) (sign : String) : Bool :=
  match signarg with
  | none => true
  | some arg =>
    (pySplitChars isSignSep sign).any fun s => isSubstr s.toList arg.toList

/-- First index at which the needle character occurs satisfying a
continuation match; helper for getexportmark.  Scans positions left to
right trying the underscore alternative first at each bar. -/
def getexportmarkAux : List Char → Option String
  | [] => none
  | '|' :: rest =>
    (match rest with
     | '_' :: _ => some "_"
     | c :: rest2 =>
       if isAsciiLetter c then
         let ws := rest2.takeWhile isWordChar
         if ws = [] then getexportmarkAux rest
         else some ((c :: ws).asString)
       else getexportmarkAux rest
     | [] => none)
  | _ :: rest => getexportmarkAux rest

/-- getexportmark from the source: re.search of bar then (underscore OR a
letter followed by one or more word characters, greedy). -/
def getexportmark (sheetName : String) : Option String :=
  getexportmarkAux sheetName.toList

/-- Descending search: try k = n-1, n-2, ..., 0 and return the first hit.
Implements greedy regex backtracking for the bound-reference pattern. -/
def findDesc {α : Type} : Nat → (Nat → Option α) → Option α
  | 0, _ => none
  | k + 1, p =>
    match p k with
    | some a => some a
    | none => findDesc k p

/-- Matcher for the tail of the bound-reference pattern after the opening
parenthesis: greedy non-whitespace run, a dot, a greedy non-whitespace run,
then a closing parenthesis. -/
def matchMarkField (s : List Char) : Option (String × String) :=
  let maxA := (s.takeWhile (fun c => ¬ isPySpace c)).length
  findDesc (maxA + 1) fun i =>
    if 1 ≤ i ∧ s.get? i = some '.' then
      let t := s.drop (i + 1)
      let maxB := (t.takeWhile (fun c => ¬ isPySpace c)).length
      (findDesc (maxB + 1) fun j =>
        if 1 ≤ j ∧ t.get? j = some ')' then some (t.take j).asString
        else none).map fun b => ((s.take i).asString, b)
    else none

/-- Try the bound-reference pattern with a given keyword at the current
position: the keyword, optional whitespace, an opening parenthesis, then
the mark.field tail. -/
def tryBindKeyword (kw : String) (s : List Char) :
    Option (String × String × String) :=
  if listStartsWith kw.toList s then
    match (s.drop kw.length).dropWhile isPySpace with
    | '(' :: rest => (matchMarkField rest).map fun p => (kw, p.1, p.2)
    | _ => none
  else none

/-- One position of re.search for the source's bound-reference pattern
(int OR string, whitespace, parenthesized mark dot field): alternation
tries int before string. -/
def searchBindAt (s : List Char) : Option (String × String × String) :=
  match tryBindKeyword "int" s with
  | some r => some r
  | none => tryBindKeyword "string" s

/-- re.search of the bound-reference pattern: scan start positions left to
right, first match wins. -/
def searchBind : List Char → Option (String × String × String)
  | [] => none
  | c :: rest =>
    match searchBindAt (c :: rest) with
    | some r => some r
    | none => searchBind rest

/-- Result of gettype: one of the four grammar productions. -/
inductive PyTypeVal where
  | list
  | obj
  | prim (s : String)
  | bindRef (kind mark field : String)
deriving Repr, DecidableEq

/-- Exporter.gettype from the source.  Python indexing of type_[-2] and
type_[-1] raises IndexError on strings of fewer than two characters before
any production is checked.  Productions are tested in a fixed order:
trailing-brackets list, brace-delimited object, primitive keyword,
bound-reference pattern; no match raises the illegal-type ValueError. -/
def gettype (t : String) : Except PyErr PyTypeVal :=
  match t.toList.reverse with
  | [] => .error .indexError
  | [_] => .error .indexError
  | last :: last2 :: _ =>
    if last2 = '[' ∧ last = ']' then .ok .list
    else if t.toList.head? = some '{' ∧ last = '}' then .ok .obj
    else if t = "int" ∨ t = "double" ∨ t = "string" ∨ t = "bool" then
      .ok (.prim t)
    else
      match searchBind t.toList with
      | some (k, m, f) => .ok (.bindRef k m f)
      | none => .error (.illegalType t)

/-- Python equality on exporter values.  Numeric kinds compare across int,
float and bool by value; strings and containers compare structurally (in
the modeled flows container comparisons never occur). -/
def pyEq : PyVal → PyVal → Bool
  | .vstr a, .vstr b => a = b
  | .vlist xs, .vlist ys => pyEqList xs ys
  | .vdict xs, .vdict ys => pyEqKV xs ys
  | .vstr _, _ => false
  | _, .vstr _ => false
  | .vlist _, _ => false
  | _, .vlist _ => false
  | .vdict _, _ => false
  | _, .vdict _ => false
  | a, b =>
    let ra : PyRat :=
      match a with
      | .vint n => ⟨n, 1⟩
      | .vfloat q => q
      | .vbool bb => if bb then ⟨1, 1⟩ else ⟨0, 1⟩
      | _ => ⟨0, 1⟩
    let rb : PyRat :=
      match b with
      | .vint n => ⟨n, 1⟩
      | .vfloat q => q
      | .vbool bb => if bb then ⟨1, 1⟩ else ⟨0, 1⟩
      | _ => ⟨0, 1⟩
    ra.num * (rb.den : Int) = rb.num * (ra.den : Int)
where
  /-- Elementwise Python equality on lists. -/
  pyEqList : List PyVal → List PyVal → Bool
    | [], [] => true
    | x :: xs, y :: ys => pyEq x y ∧ pyEqList xs ys
    | _, _ => false
  /-- Ordered pairwise Python equality on ordered dicts. -/
  pyEqKV : List (String × PyVal) → List (String × PyVal) → Bool
    | [], [] => true
    | (k, v) :: xs, (k2, v2) :: ys => k = k2 ∧ pyEq v v2 ∧ pyEqKV xs ys
    | _, _ => false

/-- Truthiness of the optional description argument. -/
def pyTruthyStr : Option String → Bool
  | none => false
  | some s => s ≠ ""

/-- getscemainfo from the source (the BindType unwrap is applied by the
caller): a one- or two-element list depending on description truthiness. -/
def getscemainfo (typename : PyVal) (desc : Option String) : PyVal :=
  if pyTruthyStr desc then .vlist [typename, .vstr (desc.getD "")]
  else .vlist [typename]

/-- The typename string stored in schema output for a base type. -/
def schemaTypeName : PyTypeVal → String
  | .prim s => s
  | .bindRef k _ _ => k
  | .list => "list"
  | .obj => "obj"

/-- A pending cross-sheet constraint: target mark, target field, and the
bound value (locations are used only in diagnostic text). -/
structure Constraint where
  mark : String
  field : String
  value : PyVal
deriving Repr

/-- Convert a filled parent container back to a Python value. -/
def contToVal : PyCont → PyVal
  | .clist xs => .vlist xs
  | .cdict kvs => .vdict kvs

/-- The shape of the recursive binder passed into the per-production
helpers: parent container, type string, name, optional raw value, schema
flag. -/
abbrev BuildFn :=
  PyCont → String → String → Option String → Bool →
    Except PyErr (PyCont × List Constraint)

/-- The token loop of buildlistexpress in data mode: bind each comma-split
token that is not whitespace-only (Python str.isspace is false on the
empty string, so empty tokens are bound, not dropped) into the
accumulating list. -/
def bindListTokens (bind : PyCont → String →
    Except PyErr (PyCont × List Constraint)) :
    List String → PyCont → List Constraint →
    Except PyErr (PyCont × List Constraint)
  | [], list_, cs => .ok (list_, cs)
  | t :: rest, list_, cs =>
    if pyIsSpace t then bindListTokens bind rest list_ cs
    else
      match bind list_ t with
      | .error e => .error e
      | .ok (list2, ncs) => bindListTokens bind rest list2 (cs ++ ncs)

/-- Exporter.buildlistexpress from the source.  Data mode strips the
bracket characters from both ends of the raw value, splits it on commas
and binds every token that is not whitespace-only; the result is stored
under name + s. -/
def buildlistexpress (build : BuildFn) (parent : PyCont)
    (type_ name : String) (value : Option String) (isschema : Bool) :
    Except PyErr (PyCont × List Constraint) :=
  let basetype := (type_.toList.dropLast.dropLast).asString
  if isschema then
    match build (.clist []) basetype name none true with
    | .error e => .error e
    | .ok (.clist (x :: _), _) =>
      (fillvalue parent (name ++ "s") (getscemainfo x value) true).map
        fun p => (p, [])
    | .ok (.clist [], _) => .error .indexError
    | .ok (.cdict _, _) => .error .typeError
  else
    match value with
    | none => .error .typeError
    | some v =>
      let valuelist :=
        pySplitChars (fun c => c = ',')
          (pyStripP (fun c => c = '[' ∨ c = ']') v)
      match bindListTokens (fun l t => build l basetype name (some t) false)
          valuelist (.clist []) [] with
      | .error e => .error e
      | .ok (list_, cs) =>
        match fillvalue parent (name ++ "s") (contToVal list_) false with
        | .error e => .error e
        | .ok p => .ok (p, cs)

/-- The schema-mode field loop of buildobjexpress: each field pair is
unpacked (a pair with other than two parts raises the unpacking
ValueError) and recursively emitted into the object. -/
def objSchemaLoop (build : BuildFn) :
    List String → PyCont → Except PyErr PyCont
  | [], obj => .ok obj
  | ft :: rest, obj =>
    match splitspace ft with
    | [fieldtype, fieldname] =>
      match build obj fieldtype fieldname none true with
      | .error e => .error e
      | .ok (obj2, _) => objSchemaLoop build rest obj2
    | _ => .error .unpackError

/-- The data-mode field loop of buildobjexpress: fields are bound
positionally against the split values; iteration past the end of the
value list binds nothing. -/
def objDataLoop (build : BuildFn) :
    List String → List String → PyCont → List Constraint →
    Except PyErr (PyCont × List Constraint)
  | [], _, obj, cs => .ok (obj, cs)
  | _ :: _, [], obj, cs => .ok (obj, cs)
  | ft :: rest, fv :: fvs, obj, cs =>
    match splitspace ft with
    | [fieldtype, fieldname] =>
      match build obj fieldtype fieldname (some fv) false with
      | .error e => .error e
      | .ok (obj2, ncs) => objDataLoop build rest fvs obj2 (cs ++ ncs)
    | _ => .error .unpackError

/-- Exporter.buildobjexpress from the source: the brace-stripped type
string is split on colons into whitespace-separated type/name field pairs;
data mode splits the brace-stripped raw value on colons positionally,
leaving fields beyond the value count unset. -/
def buildobjexpress (build : BuildFn) (parent : PyCont)
    (type_ name : String) (value : Option String) (isschema : Bool) :
    Except PyErr (PyCont × List Constraint) :=
  let fieldnamestypes :=
    pySplitChars (fun c => c = ':')
      (pyStripP (fun c => c = '{' ∨ c = '}') type_)
  if isschema then
    match objSchemaLoop build fieldnamestypes (.cdict []) with
    | .error e => .error e
    | .ok obj =>
      (fillvalue parent name (getscemainfo (contToVal obj) value) true).map
        fun p => (p, [])
  else
    match value with
    | none => .error .typeError
    | some v =>
      let fieldValues :=
        pySplitChars (fun c => c = ':')
          (pyStripP (fun c => c = '{' ∨ c = '}') v)
      match objDataLoop build fieldnamestypes fieldValues (.cdict []) [] with
      | .error e => .error e
      | .ok (obj, cs) =>
        match fillvalue parent name (contToVal obj) false with
        | .error e => .error e
        | .ok p => .ok (p, cs)

/-- Exporter.buildbasexpress from the source: schema mode stores the
typename/description pair; data mode coerces the raw value by the
keyword cascade (int, double, string, bool) and registers a constraint
when the type is a bound reference. -/
def buildbasexpress (parent : PyCont) (type_ name : String)
    (value : Option String) (isschema : Bool) :
    Except PyErr (PyCont × List Constraint) :=
  match gettype type_ with
  | .error e => .error e
  | .ok tn =>
    if isschema then
      (fillvalue parent name (getscemainfo (.vstr (schemaTypeName tn)) value)
        true).map fun p => (p, [])
    else
      match value with
      | none => .error .typeError
      | some v =>
        let kind :=
          match tn with
          | .prim s => s
          | .bindRef k _ _ => k
          | .list => "list"
          | .obj => "obj"
        let coercedE : Except PyErr PyVal :=
          if kind = "int" then
            match pyParseFloat v with
            | some q => .ok (.vint (pytrunc q))
            | none => .error (.floatValueError v)
          else if kind = "double" then
            match pyParseFloat v with
            | some q => .ok (.vfloat q)
            | none => .error (.floatValueError v)
          else if kind = "string" then
            if pyEndsWith v ".0" then
              match pyParseFloat v with
              | some q => .ok (.vstr (toString (pytrunc q)))
              | none => .ok (.vstr v)
            else .ok (.vstr v)
          else if kind = "bool" then
            match pyParseFloat v with
            | some q => .ok (.vbool (if pytrunc q = 0 then false else true))
            | none =>
              let lv := pyLower v
              if lv = "false" ∨ lv = "no" ∨ lv = "off" then .ok (.vbool false)
              else if lv = "true" ∨ lv = "yes" ∨ lv = "on" then .ok (.vbool true)
              else .error (.illegalBool lv)
          else .ok (.vstr v)
        match coercedE with
        | .error e => .error e
        | .ok coerced =>
          match fillvalue parent name coerced false with
          | .error e => .error e
          | .ok p =>
            match tn with
            | .bindRef _ m f => .ok (p, [⟨m, f, coerced⟩])
            | _ => .ok (p, [])

/-- Exporter.buildexpress from the source: dispatch on the parsed type.
The fuel argument bounds the recursion depth (the Python recursion
terminates because nested type strings strictly shrink); one unit of fuel
is consumed per recursion level. -/
def buildexpress : Nat → BuildFn
  | 0 => fun _ _ _ _ _ => .error .outOfFuel
  | fuel + 1 => fun parent type_ name value isschema =>
    match gettype type_ with
    | .error e => .error e
    | .ok .list =>
      buildlistexpress (buildexpress fuel) parent type_ name value isschema
    | .ok .obj =>
      buildobjexpress (buildexpress fuel) parent type_ name value isschema
    | .ok _ => buildbasexpress parent type_ name value isschema

/-- Top-level entry into buildexpress with sufficient fuel: the nesting
depth of the Python recursion is bounded by the type string length, since
each recursive level uses a strictly shorter type string. -/
def buildexpressTop (parent : PyCont) (type_ name : String)
    (value : Option String) (isschema : Bool) :
    Except PyErr (PyCont × List Constraint) :=
  buildexpress (type_.length + 2) parent type_ name value isschema

/-- A worksheet as delivered by the external reader: a name and rows of
pre-stringified cell text; ncols is the column count reported by the
reader. -/
structure Sheet where
  name : String
  ncols : Nat
  rows : List (List String)
deriving Repr

/-- sheet.row_values(i): IndexError outside the row range. -/
def rowValues (sheet : Sheet) (i : Nat) : Except PyErr (List String) :=
  match sheet.rows.get? i with
  | some r => .ok r
  | none => .error .indexError

/-- Python list indexing with a non-negative index. -/
def pyCell (row : List String) (i : Nat) : Except PyErr String :=
  match row.get? i with
  | some v => .ok v
  | none => .error .indexError

/-- getindex from the source: first position of a title, -1 when absent. -/
def getindex (infos : List String) (name : String) : Int :=
  match infos.findIdx? (· = name) with
  | some i => (i : Int)
  | none => -1

/-- The option surface the sheet exporters read: the -s sign argument and
whether a code-generator schema was requested. -/
structure ExpCtx where
  sign : Option String
  codegenerator : Bool
deriving Repr

/-- An ordered dict of bound fields (one item of an item-list sheet, or a
config sheet's accumulating object). -/
abbrev Item := List (String × PyVal)

/-- Per-column title info of an item-list sheet: stripped type, stripped
name, and whether the column's sign passes the active filter. -/
abbrev TitleInfo := String × String × Bool

/-- The header pass of exportitemsheet: collect (type, name, signmatch)
per column, and in code-generator mode emit schema entries for columns
with a type, a name and a passing sign. -/
def titleLoop (ctx : ExpCtx) (descriptions types names signs : List String) :
    List Nat → List TitleInfo → PyCont →
    Except PyErr (List TitleInfo × PyCont)
  | [], tis, schema => .ok (tis, schema)
  | col :: rest, tis, schema =>
    match pyCell types col, pyCell names col, pyCell signs col with
    | .ok tcell, .ok ncell, .ok scell =>
      let type_ := pyStripWs tcell
      let name := pyStripWs ncell
      let signmatch := issignmatch ctx.sign (pyStripWs scell)
      let tis2 := tis ++ [(type_, name, signmatch)]
      if ctx.codegenerator ∧ type_ ≠ "" ∧ name ≠ "" ∧ signmatch then
        match pyCell descriptions col with
        | .error e => .error e
        | .ok desc =>
          match buildexpressTop schema type_ name (some desc) true with
          | .error e => .error e
          | .ok (schema2, _) =>
            titleLoop ctx descriptions types names signs rest tis2 schema2
      else titleLoop ctx descriptions types names signs rest tis2 schema
    | .error e, _, _ => .error e
    | _, .error e, _ => .error e
    | _, _, .error e => .error e

/-- The outcome of processing one data row: continue, stop the sheet
(blank-row limit), or raise. -/
inductive RowStep (σ : Type) where
  | cont (st : σ)
  | stop (st : σ)
  | fail (e : PyErr)
deriving Repr

/-- Generic row iteration with early stop. -/
def foldRows {σ : Type} (step : σ → List String → RowStep σ) :
    σ → List (List String) → Except PyErr σ
  | st, [] => .ok st
  | st, r :: rest =>
    match step st r with
    | .fail e => .error e
    | .stop st2 => .ok st2
    | .cont st2 => foldRows step st2 rest

/-- State of the item-sheet data-row loop: consecutive-blank counter,
accumulated items, and emitted constraints. -/
structure ItemState where
  space : Nat
  items : List Item
  cs : List Constraint
deriving Repr

/-- The column loop of one item-sheet data row: a column binds its value
when type, name and value are all non-empty and the sign matches; the
blank counter is reset whenever type, name and value are all non-empty,
even if the sign filter excludes the column. -/
def itemColLoop (titleinfos : List TitleInfo) (row : List String) :
    List Nat → Item → Nat → List Constraint →
    Except PyErr (Item × Nat × List Constraint)
  | [], item, space, cs => .ok (item, space, cs)
  | col :: rest, item, space, cs =>
    match titleinfos.get? col with
    | none => .error .indexError
    | some (type_, name, signmatch) =>
      match pyCell row col with
      | .error e => .error e
      | .ok cell =>
        let value := pyStripWs cell
        if type_ ≠ "" ∧ name ≠ "" ∧ value ≠ "" then
          if signmatch then
            match buildexpressTop (.cdict item) type_ name (some value) false with
            | .error e => .error e
            | .ok (.cdict item2, ncs) =>
              itemColLoop titleinfos row rest item2 0 (cs ++ ncs)
            | .ok (.clist _, _) => .error .typeError
          else itemColLoop titleinfos row rest item 0 cs
        else itemColLoop titleinfos row rest item space cs

/-- spacemaxrowcount from the source. -/
def spacemaxrowcount : Nat := 3

/-- One data row of an item-list sheet: blank first cell counts toward the
blank limit (stop at three); a first cell starting with the hash character
is a comment row, skipped without touching the counter; otherwise the
columns are bound and the item is appended only when non-empty. -/
def itemRowStep (titleinfos : List TitleInfo) (ncols : Nat)
    (st : ItemState) (row : List String) : RowStep ItemState :=
  match pyCell row 0 with
  | .error e => .fail e
  | .ok c0 =>
    let firsttext := pyStripWs c0
    if firsttext = "" then
      let sp := st.space + 1
      if sp ≥ spacemaxrowcount then .stop { st with space := sp }
      else .cont { st with space := sp }
    else if firsttext.toList.head? = some '#' then .cont st
    else
      match itemColLoop titleinfos row (List.range ncols) [] st.space st.cs with
      | .error e => .fail e
      | .ok (item, sp, cs) =>
        .cont { space := sp,
                items := if item.isEmpty then st.items else st.items ++ [item],
                cs := cs }

/-- Exporter.exportitemsheet from the source: header rows 0 to 3 are
descriptions, types, names and signs; data rows start at row 4.  Returns
the schema object, the item sequence and the constraints emitted while
binding. -/
def exportitemsheet (ctx : ExpCtx) (sheet : Sheet) :
    Except PyErr (Item × List Item × List Constraint) :=
  match rowValues sheet 0 with
  | .error e => .error e
  | .ok descriptions =>
  match rowValues sheet 1 with
  | .error e => .error e
  | .ok types =>
  match rowValues sheet 2 with
  | .error e => .error e
  | .ok names =>
  match rowValues sheet 3 with
  | .error e => .error e
  | .ok signs =>
    match titleLoop ctx descriptions types names signs
        (List.range sheet.ncols) [] (.cdict []) with
    | .error e => .error e
    | .ok (titleinfos, schemaCont) =>
      match foldRows (itemRowStep titleinfos sheet.ncols)
          ⟨0, [], []⟩ (sheet.rows.drop 4) with
      | .error e => .error e
      | .ok st =>
        match schemaCont with
        | .cdict kvs => .ok (kvs, st.items, st.cs)
        | .clist _ => .error .typeError

/-- Title-column indices of a config sheet (-1 when the title is absent;
Python later uses these as possibly negative list indices). -/
structure ConfigIdx where
  nameindex : Int
  valueindex : Int
  typeindex : Int
  signindex : Int
  descriptionindex : Int
deriving Repr, DecidableEq

/-- Exporter.getconfigsheetfinfo from the source: a sheet is a config
sheet when its first row contains the name, value and type titles. -/
def getconfigsheetfinfo (sheet : Sheet) : Except PyErr (Option ConfigIdx) :=
  match rowValues sheet 0 with
  | .error e => .error e
  | .ok titles =>
    let nameindex := getindex titles "name"
    let valueindex := getindex titles "value"
    let typeindex := getindex titles "type"
    let signindex := getindex titles "sign"
    let descriptionindex := getindex titles "description"
    if nameindex ≠ -1 ∧ valueindex ≠ -1 ∧ typeindex ≠ -1 then
      .ok (some ⟨nameindex, valueindex, typeindex, signindex,
        descriptionindex⟩)
    else .ok none

/-- State of the config-sheet row loop. -/
structure ConfigState where
  space : Nat
  schema : Item
  obj : Item
  cs : List Constraint
deriving Repr

/-- One row of a config sheet, following the source exactly: the four
title cells are read first (IndexError propagates; a -1 description index
silently reads the last cell); the sign filter is consulted only when the
sign column index is positive and skips the row entirely; a row with
name, value and type all blank counts toward the blank limit; a row with
a name and a type resets the blank counter even when the name marks a
comment; any other row is skipped without touching the counter. -/
def configRowStep (ctx : ExpCtx) (ti : ConfigIdx)
    (st : ConfigState) (row : List String) : RowStep ConfigState :=
  match pyIndex row ti.nameindex with
  | .error e => .fail e
  | .ok ncell =>
  match pyIndex row ti.valueindex with
  | .error e => .fail e
  | .ok vcell =>
  match pyIndex row ti.typeindex with
  | .error e => .fail e
  | .ok tcell =>
  match pyIndex row ti.descriptionindex with
  | .error e => .fail e
  | .ok dcell =>
    let name := pyStripWs ncell
    let value := pyStripWs vcell
    let type_ := pyStripWs tcell
    let description := pyStripWs dcell
    let signskip : Except PyErr Bool :=
      if ti.signindex > 0 then
        match pyIndex row ti.signindex with
        | .error e => .error e
        | .ok scell => .ok (! issignmatch ctx.sign (pyStripWs scell))
      else .ok false
    match signskip with
    | .error e => .fail e
    | .ok true => .cont st
    | .ok false =>
      if name = "" ∧ value = "" ∧ type_ = "" then
        let sp := st.space + 1
        if sp ≥ spacemaxrowcount then .stop { st with space := sp }
        else .cont { st with space := sp }
      else if name ≠ "" ∧ type_ ≠ "" then
        let afterBuild : Except PyErr (Item × Item × List Constraint) :=
          if name.toList.head? ≠ some '#' then
            let schemaE : Except PyErr Item :=
              if ctx.codegenerator then
                match buildexpressTop (.cdict st.schema) type_ name
                    (some description) true with
                | .error e => .error e
                | .ok (.cdict kvs, _) => .ok kvs
                | .ok (.clist _, _) => .error .typeError
              else .ok st.schema
            match schemaE with
            | .error e => .error e
            | .ok schema2 =>
              if value ≠ "" then
                match buildexpressTop (.cdict st.obj) type_ name
                    (some value) false with
                | .error e => .error e
                | .ok (.cdict obj2, ncs) => .ok (schema2, obj2, st.cs ++ ncs)
                | .ok (.clist _, _) => .error .typeError
              else .ok (schema2, st.obj, st.cs)
          else .ok (st.schema, st.obj, st.cs)
        match afterBuild with
        | .error e => .fail e
        | .ok (schema2, obj2, cs2) =>
          .cont { space := 0, schema := schema2, obj := obj2, cs := cs2 }
      else .cont st

/-- Exporter.exportconfigsheet from the source: rows start at row 1. -/
def exportconfigsheet (ctx : ExpCtx) (sheet : Sheet) (ti : ConfigIdx) :
    Except PyErr (Item × Item × List Constraint) :=
  match foldRows (configRowStep ctx ti) ⟨0, [], [], []⟩
      (sheet.rows.drop 1) with
  | .error e => .error e
  | .ok st => .ok (st.schema, st.obj, st.cs)

/-- The data tree held by a Record: an item sequence for item-list sheets,
a flat object for config sheets. -/
inductive RecObj where
  | items (xs : List Item)
  | cfg (kvs : Item)
deriving Repr

/-- One exportable unit, as registered by Exporter.addrecord. -/
structure Record where
  path : String
  sheet : Sheet
  exportfile : String
  root : String
  item : Option String
  schema : Option Item
  obj : Option RecObj
  exportmark : String
  needsave : Bool
deriving Repr

/-- Python truthiness of a Record's data slot (None, an empty list and an
empty dict are all falsy). -/
def recObjTruthy : Option RecObj → Bool
  | none => false
  | some (.items []) => false
  | some (.items (_ :: _)) => true
  | some (.cfg []) => false
  | some (.cfg (_ :: _)) => true

/-- The full option surface of an export run. -/
structure Ctx where
  sign : Option String
  codegenerator : Bool
  format : String
  folder : String
  extension : Option String
deriving Repr

/-- The sheet-level options of a full context. -/
def Ctx.toExp (ctx : Ctx) : ExpCtx := ⟨ctx.sign, ctx.codegenerator⟩

/-- gerexportfilename from the source (os.path.join modeled as
slash-joining; the exporter always passes a folder and a bare filename). -/
def gerexportfilename (root format_ folder : String) : String :=
  folder ++ "/" ++ root ++ "." ++ format_

/-- The mutable exporter state: the record registry and the pending
constraints. -/
structure ExpState where
  records : List Record
  constraints : List Constraint
deriving Repr

/-- The staleness-gated exporter invocation of the per-sheet body: when
the output file is out of date, run the item-sheet or config-sheet
exporter; otherwise register nothing (the data tree stays None). -/
def runSheetExporter (ctx : Ctx) (stale : String → String → Bool)
    (path exportfile : String) (cfgInfo : Option ConfigIdx) (sheet : Sheet) :
    Except PyErr (Option (Item × RecObj) × List Constraint) :=
  if stale path exportfile then
    match cfgInfo with
    | none =>
      match exportitemsheet ctx.toExp sheet with
      | .error e => .error e
      | .ok (schema, items, ncs) => .ok (some (schema, .items items), ncs)
    | some ti =>
      match exportconfigsheet ctx.toExp sheet ti with
      | .error e => .error e
      | .ok (schema, obj, ncs) => .ok (some (schema, .cfg obj), ncs)
  else .ok (none, [])

/-- Per-sheet body of Exporter.export: extract the export mark, classify
the sheet, compute root and output file, reject duplicate roots, run the
sheet exporter when the output is stale, and register the Record. -/
def processSheet (ctx : Ctx) (stale : String → String → Bool)
    (path : String) (st : ExpState) (sheet : Sheet) :
    Except PyErr ExpState :=
  match getexportmark sheet.name with
  | none => .ok st
  | some exportmark =>
    match getconfigsheetfinfo sheet with
    | .error e => .error e
    | .ok cfgInfo =>
      let ext := ctx.extension.getD ""
      let (root, item) :=
        match cfgInfo with
        | none => (exportmark ++ "s" ++ ext, some exportmark)
        | some _ => (exportmark ++ ext, none)
      let exportfile := gerexportfilename root ctx.format ctx.folder
      if st.records.any (fun r => r.root = root) then
        .error (.duplicateRoot root)
      else
        match runSheetExporter ctx stale path exportfile cfgInfo sheet with
        | .error e => .error e
        | .ok (exported, ncs) =>
          let rec_ : Record :=
            { path := path, sheet := sheet, exportfile := exportfile,
              root := root, item := item,
              schema := exported.map (·.1), obj := exported.map (·.2),
              exportmark := exportmark, needsave := exported.isSome }
          .ok { records := st.records ++ [rec_],
                constraints := st.constraints ++ ncs }

/-- Iterate processSheet over the sheets of one workbook. -/
def processSheets (ctx : Ctx) (stale : String → String → Bool)
    (path : String) : ExpState → List Sheet → Except PyErr ExpState
  | st, [] => .ok st
  | st, s :: rest =>
    match processSheet ctx stale path st s with
    | .error e => .error e
    | .ok st2 => processSheets ctx stale path st2 rest

/-- Per-path body of Exporter.export: skip empty tokens, reject a path of
an already registered Record, open the workbook, process its sheets. -/
def processPath (ctx : Ctx) (stale : String → String → Bool)
    (wb : List (String × List Sheet)) (st : ExpState) (path : String) :
    Except PyErr ExpState :=
  if path = "" then .ok st
  else if st.records.any (fun r => r.path = path) then
    .error (.duplicatePath path)
  else
    match wb.find? (fun p => p.1 = path) with
    | none => .error (.workbookMissing path)
    | some (_, sheets) => processSheets ctx stale path st sheets

/-- Iterate processPath over all path tokens. -/
def processPaths (ctx : Ctx) (stale : String → String → Bool)
    (wb : List (String × List Sheet)) :
    ExpState → List String → Except PyErr ExpState
  | st, [] => .ok st
  | st, p :: rest =>
    match processPath ctx stale wb st p with
    | .error e => .error e
    | .ok st2 => processPaths ctx stale wb st2 rest

/-- The collection phase of Exporter.export: split the configured path
string on comma/whitespace runs and process every workbook.  The
subsequent constraint check is modeled by checkconstraint1 below, and the
file-writing phase is external. -/
def exportRun (ctx : Ctx) (wb : List (String × List Sheet))
    (stale : String → String → Bool) (pathstr : String) :
    Except PyErr ExpState :=
  processPaths ctx stale wb ⟨[], []⟩
    (pySplitRuns (fun c => c = ',' ∨ isPySpace c) (pyStripWs pathstr))

/-- The generator scan of checkconstraint: walk the item sequence in
order, looking up the constrained field of each item (KeyError when an
item reached by the scan lacks the field) until a value matches. -/
def nextMatchField (field : String) (v : PyVal) :
    List Item → Except PyErr Bool
  | [] => .ok false
  | it :: rest =>
    match dictGet it field with
    | none => .error (.keyError field)
    | some w => if pyEq w v then .ok true else nextMatchField field v rest

/-- First Record whose item mark equals the target mark. -/
def recFindIdx (recs : List Record) (mark : String) : Option Nat :=
  recs.findIdx? (fun r => r.item = some mark)

/-- The body of the checkconstraint loop for a single pending constraint:
locate the target Record by item mark, lazily rebuild its data tree when
it is falsy (never materialized, or materialized empty), then scan the
item sequence for the asserted value.  Returns the updated registry and
constraints newly emitted by a rebuild (Python appends them to the list
being iterated). -/
def checkconstraint1 (ctx : ExpCtx) (recs : List Record) (c : Constraint) :
    Except PyErr (List Record × List Constraint) :=
  match recFindIdx recs c.mark with
  | none => .error (.markNotFound c.mark)
  | some idx =>
    match recs.get? idx with
    | none => .error .indexError
    | some r =>
      if recObjTruthy r.obj then
        match r.obj with
        | some (.items items) =>
          match nextMatchField c.field c.value items with
          | .error e => .error e
          | .ok true => .ok (recs, [])
          | .ok false => .error (.fieldNotFound c.field)
        | some (.cfg _) => .error .typeError
        | none => .error .typeError
      else
        match exportitemsheet ctx r.sheet with
        | .error e => .error e
        | .ok (schema, items, ncs) =>
          let r2 := { r with schema := some schema, obj := some (.items items) }
          match nextMatchField c.field c.value items with
          | .error e => .error e
          | .ok true => .ok (recs.set idx r2, ncs)
          | .ok false => .error (.fieldNotFound c.field)


/-! Fixtures and spec-modelled comparators used by the claim theorems. -/

/-- Modelled from the spec sentence behind C2: set-membership sign
filtering — the column is included iff the active sign set is None or some
token of the split sign text is an element of the set. -/
def signMatchSpecSet (signset : Option (List String)) (sign : String) : Bool :=
  match signset with
  | none => true
  | some toks => (pySplitChars isSignSep sign).any fun s => toks.contains s

/-- Modelled from the spec sentence behind C4: the identifier pattern the
spec states, one letter-or-underscore head followed by any number of word
characters. -/
def specIdentPattern (name : String) : Bool :=
  match name.data with
  | [] => false
  | c :: rest => (isAsciiLetter c ∨ c = '_') ∧ rest.all isWordChar

/-- The sheet-level options of the C3 scenario: an active sign argument
that matches no column sign. -/
def ctxC3 : ExpCtx := ⟨some "t", false⟩

/-- An item-list sheet with one column whose sign is excluded by the C3
context, and one data row with a populated, non-comment first cell. -/
def sheetC3 : Sheet := ⟨"s|Hero", 1, [["d1"], ["int"], ["id"], ["s"], ["1"]]⟩

/-- The record of the C6 counterexample: its first item lacks the id
field while its second item has id equal two. -/
def recC6 : Record :=
  { path := "f", sheet := ⟨"a|Aa", 1, [["d"], ["int"], ["id"], [""], ["1"]]⟩,
    exportfile := "e", root := "Heros", item := some "Hero",
    schema := some [],
    obj := some (.items [[("x", .vint 1)], [("id", .vint 2)]]),
    exportmark := "Hero", needsave := true }

/-- The record of the C6 witness: both items carry the id field. -/
def recC6ok : Record :=
  { path := "f", sheet := ⟨"a|Aa", 1, [["d"], ["int"], ["id"], [""], ["1"]]⟩,
    exportfile := "e", root := "Heros", item := some "Hero",
    schema := some [],
    obj := some (.items [[("id", .vint 1)], [("id", .vint 2)]]),
    exportmark := "Hero", needsave := true }

/-- The record of the C10 counterexample: its first item matches the
constraint, its second item lacks the field entirely. -/
def recC10 : Record :=
  { path := "f", sheet := ⟨"a|Aa", 1, [["d"], ["int"], ["id"], [""], ["1"]]⟩,
    exportfile := "e", root := "Heros", item := some "Hero",
    schema := some [],
    obj := some (.items [[("id", .vint 2)], []]),
    exportmark := "Hero", needsave := true }

/-- The standard config-sheet title layout used in the C8 statements. -/
def tiStd : ConfigIdx := ⟨0, 1, 2, 3, 4⟩

/-- The options of the C9 scenario. -/
def ctxC9 : Ctx := ⟨none, false, "json", "out", none⟩

/-- A workbook with two export-marked item sheets in the same file. -/
def wbC9 : List (String × List Sheet) :=
  [("f", [⟨"a|Aa", 1, [["d"], ["int"], ["id"], [""], ["1"]]⟩,
          ⟨"b|Bb", 1, [["d"], ["int"], ["id"], [""], ["2"]]⟩])]

/-! Supporting lemmas. -/

/-- A list whose reverse starts with two given characters is exactly a list
ending in those two characters. -/
theorem ends_pair_iff (cs : List Char) (a b x y : Char) (rest : List Char)
    (hr : cs.reverse = a :: b :: rest) :
    (b = x ∧ a = y) ↔ ∃ pre, cs = pre ++ [x, y] := by
  constructor
  · rintro ⟨hb, ha⟩
    subst hb; subst ha
    refine ⟨rest.reverse, ?_⟩
    rw [← List.reverse_reverse cs, hr]
    simp
  · rintro ⟨pre, hp⟩
    subst hp
    rw [List.reverse_append] at hr
    simp at hr
    exact ⟨hr.2.1.symm, hr.1.symm⟩

/-- A list whose reverse starts with two characters and whose head is an
opening brace and last character a closing brace is exactly a
brace-delimited list. -/
theorem brace_shape_iff (cs : List Char) (a b : Char) (rest : List Char)
    (hr : cs.reverse = a :: b :: rest) :
    (cs.head? = some '{' ∧ a = '}') ↔ ∃ mid, cs = '{' :: (mid ++ ['}']) := by
  constructor
  · rintro ⟨hh, ha⟩
    subst ha
    cases hcs : cs with
    | nil => rw [hcs] at hh; simp at hh
    | cons c tail =>
      rw [hcs] at hh
      simp at hh
      subst hh
      rw [hcs] at hr
      simp at hr
      cases ht : tail.reverse with
      | nil => rw [ht] at hr; simp at hr
      | cons a2 tr2 =>
        rw [ht] at hr
        simp at hr
        obtain ⟨ha2, _⟩ := hr
        refine ⟨tr2.reverse, ?_⟩
        have htail : tail = tr2.reverse ++ [a2] := by
          rw [← List.reverse_reverse tail, ht]; simp
        rw [htail, ha2]
  · rintro ⟨mid, hm⟩
    subst hm
    refine ⟨by simp, ?_⟩
    simp at hr
    exact hr.1.symm

/-! Claim C1. -/

/-- C1 (counterexample): the claim says a type string matching none of the
four productions fails with the IllegalType error and with no other kind
of failure; but the one-character string x matches no production and
gettype raises IndexError (Python evaluates the negative index before any
production is checked). -/
theorem gettype_c1_counterexample :
    gettype "x" = .error .indexError ∧
      PyErr.indexError ≠ PyErr.illegalType "x" := by
  constructor
  · rfl
  · intro h
    cases h

/-- C1 (amended): for type strings of length at least two, gettype checks
the four productions in the fixed priority order (trailing-bracket list,
brace-delimited object, primitive keyword, bound-reference pattern), the
first match wins, and when none matches the only failure is the
IllegalType error; strings of length below two instead raise IndexError
from the negative indexing. -/
theorem gettype_c1_characterization (t : String) :
    (gettype t = .ok .list ↔ (∃ pre, t.data = pre ++ ['[', ']']))
  ∧ (gettype t = .ok .obj ↔
      ((¬ ∃ pre, t.data = pre ++ ['[', ']']) ∧
        ∃ mid, t.data = '{' :: (mid ++ ['}'])))
  ∧ (∀ s, gettype t = .ok (.prim s) ↔
      ((¬ ∃ pre, t.data = pre ++ ['[', ']']) ∧
        (¬ ∃ mid, t.data = '{' :: (mid ++ ['}'])) ∧
        (t = "int" ∨ t = "double" ∨ t = "string" ∨ t = "bool") ∧ s = t))
  ∧ (∀ k m f, gettype t = .ok (.bindRef k m f) ↔
      (2 ≤ t.length ∧
        (¬ ∃ pre, t.data = pre ++ ['[', ']']) ∧
        (¬ ∃ mid, t.data = '{' :: (mid ++ ['}'])) ∧
        ¬ (t = "int" ∨ t = "double" ∨ t = "string" ∨ t = "bool") ∧
        searchBind t.data = some (k, m, f)))
  ∧ (∀ e, gettype t = .error e ↔
      ((t.length < 2 ∧ e = .indexError) ∨
       (2 ≤ t.length ∧
        (¬ ∃ pre, t.data = pre ++ ['[', ']']) ∧
        (¬ ∃ mid, t.data = '{' :: (mid ++ ['}'])) ∧
        ¬ (t = "int" ∨ t = "double" ∨ t = "string" ∨ t = "bool") ∧
        searchBind t.data = none ∧ e = .illegalType t))) := by
  rcases hr : t.toList.reverse with _ | ⟨a, rest1⟩
  · -- empty type string
    have hnil : t.data = [] := List.reverse_eq_nil_iff.mp hr
    have hlen0 : t.length = 0 := by simp [String.length, hnil]
    have hg : gettype t = .error .indexError := by
      unfold gettype; rw [hr]
    have n3 : ¬ (t = "int" ∨ t = "double" ∨ t = "string" ∨ t = "bool") := by
      rintro (h | h | h | h) <;> subst h <;> exact absurd hlen0 (by decide)
    refine ⟨?_, ?_, fun s => ?_, fun k m f => ?_, fun e => ?_⟩ <;>
      simp [hg, hnil, hlen0, n3] <;> try exact eq_comm
  · rcases rest1 with _ | ⟨b, rest⟩
    · -- one-character type string
      have hone : t.data = [a] := by
        rw [← List.reverse_reverse t.data]
        rw [show t.data.reverse = [a] from hr]
        rfl
      have hlen1 : t.length = 1 := by simp [String.length, hone]
      have hg : gettype t = .error .indexError := by
        unfold gettype; rw [hr]
      have n3 : ¬ (t = "int" ∨ t = "double" ∨ t = "string" ∨ t = "bool") := by
        rintro (h | h | h | h) <;> subst h <;> exact absurd hlen1 (by decide)
      have nopre : ∀ x : List Char, ¬ t.data = x ++ ['[', ']'] := by
        intro x h
        have := congrArg List.length h
        rw [hone] at this
        simp at this
      have nobrace : ∀ x : List Char, ¬ t.data = '{' :: (x ++ ['}']) := by
        intro x h
        have := congrArg List.length h
        rw [hone] at this
        simp at this
      refine ⟨?_, ?_, fun s => ?_, fun k m f => ?_, fun e => ?_⟩ <;>
        simp [hg, hlen1, n3, nopre, nobrace] <;> try exact eq_comm
    · -- length at least two: the production cascade
      have hrd : t.data.reverse = a :: b :: rest := hr
      have hcs : t.data = rest.reverse ++ [b, a] := by
        rw [← List.reverse_reverse t.data, hrd]; simp
      have hlen : t.length = rest.length + 2 := by
        simp [String.length, hcs]
      have hbr1 := ends_pair_iff t.data a b '[' ']' rest hrd
      have hbr2 := brace_shape_iff t.data a b rest hrd
      by_cases h1 : b = '[' ∧ a = ']'
      · have p1 : ∃ pre, t.data = pre ++ ['[', ']'] := hbr1.mp h1
        have hg : gettype t = .ok .list := by
          unfold gettype; rw [hr]; simp [h1]
        refine ⟨?_, ?_, fun s => ?_, fun k m f => ?_, fun e => ?_⟩ <;>
          simp [hg, p1, hlen]
      · have n1 : ¬ ∃ pre, t.data = pre ++ ['[', ']'] :=
          fun hx => h1 (hbr1.mpr hx)
        by_cases h2 : t.data.head? = some '{' ∧ a = '}'
        · have p2 : ∃ mid, t.data = '{' :: (mid ++ ['}']) := hbr2.mp h2
          have hg : gettype t = .ok .obj := by
            unfold gettype; rw [hr]
            simp only [String.toList] at h1 h2 ⊢
            simp [h1, h2]
          refine ⟨?_, ?_, fun s => ?_, fun k m f => ?_, fun e => ?_⟩ <;>
            simp [hg, n1, p2, hlen]
        · have n2 : ¬ ∃ mid, t.data = '{' :: (mid ++ ['}']) :=
            fun hx => h2 (hbr2.mpr hx)
          by_cases h3 : t = "int" ∨ t = "double" ∨ t = "string" ∨ t = "bool"
          · have hg : gettype t = .ok (.prim t) := by
              unfold gettype; rw [hr]
              simp only [String.toList] at h1 h2 ⊢
              simp [h1, h2, h3]
            refine ⟨?_, ?_, fun s => ?_, fun k m f => ?_, fun e => ?_⟩ <;>
              simp [hg, n1, n2, h3, hlen] <;> try exact eq_comm
          · cases hsb : searchBind t.data with
            | some r =>
              obtain ⟨k0, mf⟩ := r
              obtain ⟨m0, f0⟩ := mf
              have hg : gettype t = .ok (.bindRef k0 m0 f0) := by
                unfold gettype; rw [hr]
                simp only [String.toList] at h1 h2 ⊢
                simp [h1, h2, h3]
                rw [show searchBind t.data = some (k0, m0, f0) from hsb]
              refine ⟨?_, ?_, fun s => ?_, fun k m f => ?_, fun e => ?_⟩ <;>
                simp [hg, n1, n2, h3, hlen, hsb] <;> try exact eq_comm
            | none =>
              have hg : gettype t = .error (.illegalType t) := by
                unfold gettype; rw [hr]
                simp only [String.toList] at h1 h2 ⊢
                simp [h1, h2, h3]
                rw [show searchBind t.data = none from hsb]
              refine ⟨?_, ?_, fun s => ?_, fun k m f => ?_, fun e => ?_⟩ <;>
                simp [hg, n1, n2, h3, hlen, hsb] <;> try exact eq_comm


/-! Claim C2. -/

/-- A prefix test succeeds exactly on list decompositions. -/
theorem listStartsWith_iff (n : List Char) :
    ∀ h : List Char, listStartsWith n h = true ↔ ∃ tail, h = n ++ tail := by
  induction n with
  | nil =>
    intro h
    simp [listStartsWith]
  | cons a as ih =>
    intro h
    cases h with
    | nil => simp [listStartsWith]
    | cons b bs =>
      constructor
      · intro hs
        have h1 : a = b ∧ listStartsWith as bs = true := by
          simpa [listStartsWith] using hs
        obtain ⟨tail, ht⟩ := (ih bs).mp h1.2
        refine ⟨tail, ?_⟩
        rw [h1.1.symm, ht]
        simp
      · rintro ⟨tail, htail⟩
        injection htail with h1 h2
        simp [listStartsWith, h1, (ih bs).mpr ⟨tail, h2⟩]

/-- Python substring containment succeeds exactly on three-way
decompositions. -/
theorem isSubstr_iff (n h : List Char) :
    isSubstr n h = true ↔ ∃ x y, h = x ++ n ++ y := by
  unfold isSubstr
  rw [List.any_eq_true]
  constructor
  · rintro ⟨i, hi, hs⟩
    obtain ⟨tail, htail⟩ := (listStartsWith_iff n (h.drop i)).mp hs
    refine ⟨h.take i, tail, ?_⟩
    conv_lhs => rw [← List.take_append_drop i h]
    rw [htail]
    simp
  · rintro ⟨x, y, hxy⟩
    refine ⟨x.length, ?_, ?_⟩
    · rw [List.mem_range]
      have : h.length = x.length + (n.length + y.length) := by
        rw [hxy]; simp
      omega
    · apply (listStartsWith_iff n (h.drop x.length)).mpr
      refine ⟨y, ?_⟩
      rw [hxy, List.append_assoc, List.drop_left]


/-- C2 (counterexample): with active sign argument ab, the cell text a is
included by the code (Python substring membership: a occurs inside ab),
while the claim's set-intersection semantics excludes it (the token set
of a and the set containing ab are disjoint). -/
theorem issignmatch_c2_counterexample :
    issignmatch (some "ab") "a" = true ∧
      signMatchSpecSet (some ["ab"]) "a" = false := by
  exact ⟨rfl, rfl⟩

/-- C2 (amended): the sign filter includes a column iff the active sign
argument is None, or some token obtained by splitting the cell text on
slash, backslash, comma, space or colon occurs as a contiguous substring
of the sign argument string (substring containment, not set membership;
in particular an empty token matches any argument). -/
theorem issignmatch_c2_characterization (arg sign : String) :
    issignmatch none sign = true ∧
    (issignmatch (some arg) sign = true ↔
      ∃ tok ∈ pySplitChars isSignSep sign,
        ∃ x y, arg.data = x ++ tok.data ++ y) := by
  constructor
  · rfl
  · unfold issignmatch
    rw [List.any_eq_true]
    constructor
    · rintro ⟨tok, htok, hsub⟩
      exact ⟨tok, htok, (isSubstr_iff tok.data arg.data).mp hsub⟩
    · rintro ⟨tok, htok, hdec⟩
      exact ⟨tok, htok, (isSubstr_iff tok.data arg.data).mpr hdec⟩

/-! Claim C4. -/


/-- C4 (counterexample): the single-letter name a matches the identifier
pattern the claim states, yet schema-mode fillvalue rejects it with
IllegalIdentifier: by regex precedence the source pattern is
(caret underscore) OR ([a-zA-Z] backslash-w-plus dollar), which requires
at least two characters when the name does not start with an underscore. -/
theorem fillvalue_c4_counterexample :
    fillvalue (.cdict []) "a" (.vstr "d") true =
        .error (.illegalIdentifier "a") ∧
      specIdentPattern "a" = true := by
  exact ⟨rfl, rfl⟩

/-- The accepted names of the source's identifier regex, spelled out. -/
theorem pyIdentMatch_iff (name : String) :
    pyIdentMatch name = true ↔
      (name.data.head? = some '_' ∨
        ∃ c rest, name.data = c :: rest ∧ isAsciiLetter c = true ∧
          ((if rest.getLast? = some '\n' then rest.dropLast else rest) ≠ [] ∧
           (if rest.getLast? = some '\n' then rest.dropLast else rest).all
             isWordChar = true)) := by
  unfold pyIdentMatch
  simp only [String.toList]
  cases hd : name.data with
  | nil => simp
  | cons c rest =>
    simp only [decide_eq_true_eq, Bool.or_eq_true, Bool.and_eq_true]
    constructor
    · rintro (h | ⟨hl, hbody⟩)
      · left; simp [h]
      · right
        exact ⟨c, rest, rfl, hl, by
          simpa using hbody⟩
    · rintro (h | ⟨c2, rest2, heq, hl, hbody⟩)
      · left; simpa using h
      · right
        injection heq with h1 h2
        subst h1; subst h2
        exact ⟨hl, by simpa using hbody⟩

/-- C4 (amended): schema-mode fillvalue into a mapping node accepts a name
iff the name starts with an underscore (anything may follow, including
characters outside the word class), or starts with an ASCII letter
followed by at least one word character filling the rest of the name (so
every single-letter name is rejected); rejection raises
IllegalIdentifier. -/
theorem fillvalue_c4_characterization (name : String) (v : PyVal)
    (kvs : List (String × PyVal)) :
    ((∃ kvs2, fillvalue (.cdict kvs) name v true = .ok (.cdict kvs2)) ↔
      (name.data.head? = some '_' ∨
        ∃ c rest, name.data = c :: rest ∧ isAsciiLetter c = true ∧
          ((if rest.getLast? = some '\n' then rest.dropLast else rest) ≠ [] ∧
           (if rest.getLast? = some '\n' then rest.dropLast else rest).all
             isWordChar = true)))
  ∧ (fillvalue (.cdict kvs) name v true = .error (.illegalIdentifier name) ↔
      ¬ (name.data.head? = some '_' ∨
        ∃ c rest, name.data = c :: rest ∧ isAsciiLetter c = true ∧
          ((if rest.getLast? = some '\n' then rest.dropLast else rest) ≠ [] ∧
           (if rest.getLast? = some '\n' then rest.dropLast else rest).all
             isWordChar = true))) := by
  rw [← pyIdentMatch_iff]
  cases hm : pyIdentMatch name with
  | true => simp [fillvalue, hm]
  | false => simp [fillvalue, hm]


/-! Claim C5. -/

/-- C5 (counterexample): binding List(Int) against the value with an empty
middle token raises the float ValueError on the empty string instead of
dropping the token: comma-splitting yields an empty token, Python
str.isspace is false on the empty string, so the empty token is bound as
an int and int(float()) fails. -/
theorem buildlist_c5_counterexample :
    buildexpressTop (.cdict []) "int[]" "n" (some "[1,,3]") false =
        .error (.floatValueError "") ∧
      pySplitChars (fun c => c = ',')
          (pyStripP (fun c => c = '[' ∨ c = ']') "[1,,3]") = ["1", "", "3"] ∧
      pyIsSpace "" = false := by
  exact ⟨rfl, rfl, rfl⟩

/-- C5 (amended): the data-mode list binder strips surrounding bracket
characters, splits on commas and binds the element type to each token;
only tokens that are non-empty and all-whitespace are dropped — the empty
token is bound, not dropped (for an int element this raises the float
ValueError).  Binding List(Int) against a bracketed 1,2,3 yields the
ordered sequence 1, 2, 3 under the key name + s. -/
theorem buildlist_c5_characterization :
    (∀ (bind : PyCont → String → Except PyErr (PyCont × List Constraint))
        (toks : List String) (l : PyCont) (cs : List Constraint),
      bindListTokens bind toks l cs =
        bindListTokens bind (toks.filter fun t => ¬ pyIsSpace t) l cs)
  ∧ buildexpressTop (.cdict []) "int[]" "n" (some "[1,2,3]") false =
      .ok (.cdict [("n" ++ "s", .vlist [.vint 1, .vint 2, .vint 3])], []) := by
  constructor
  · intro bind toks
    induction toks with
    | nil => intro l cs; rfl
    | cons t rest ih =>
      intro l cs
      by_cases hsp : pyIsSpace t
      · simp [bindListTokens, hsp, ih]
      · simp only [List.filter]
        rw [show (decide ¬ pyIsSpace t = true) = true by simp [hsp]]
        simp only [bindListTokens]
        rw [if_neg (by simp [hsp])]
        rw [if_neg (by simp [hsp])]
        cases hb : bind l t with
        | error e => rfl
        | ok p => exact ih p.1 (cs ++ p.2)
  · rfl

/-! Claim C7. -/

/-- C7: data-mode Bool coercion — a raw value that parses as a number
yields false exactly when the number truncates to zero; a non-numeric
value is case-folded and mapped from the false/no/off and true/yes/on
sets; anything else raises the illegal-bool ValueError; and the concrete
spec examples evaluate as stated. -/
theorem buildbool_c7 (v nm : String) :
    (∀ q, pyParseFloat v = some q →
      buildexpressTop (.clist []) "bool" nm (some v) false =
        .ok (.clist [.vbool (if pytrunc q = 0 then false else true)], []))
  ∧ (pyParseFloat v = none →
      (pyLower v = "false" ∨ pyLower v = "no" ∨ pyLower v = "off") →
      buildexpressTop (.clist []) "bool" nm (some v) false =
        .ok (.clist [.vbool false], []))
  ∧ (pyParseFloat v = none →
      (pyLower v = "true" ∨ pyLower v = "yes" ∨ pyLower v = "on") →
      buildexpressTop (.clist []) "bool" nm (some v) false =
        .ok (.clist [.vbool true], []))
  ∧ (pyParseFloat v = none →
      ¬ (pyLower v = "false" ∨ pyLower v = "no" ∨ pyLower v = "off") →
      ¬ (pyLower v = "true" ∨ pyLower v = "yes" ∨ pyLower v = "on") →
      buildexpressTop (.clist []) "bool" nm (some v) false =
        .error (.illegalBool (pyLower v)))
  ∧ (buildexpressTop (.clist []) "bool" nm (some "0") false =
        .ok (.clist [.vbool false], []) ∧
     buildexpressTop (.clist []) "bool" nm (some "1") false =
        .ok (.clist [.vbool true], []) ∧
     buildexpressTop (.clist []) "bool" nm (some "Yes") false =
        .ok (.clist [.vbool true], []) ∧
     buildexpressTop (.clist []) "bool" nm (some "OFF") false =
        .ok (.clist [.vbool false], []) ∧
     buildexpressTop (.clist []) "bool" nm (some "maybe") false =
        .error (.illegalBool "maybe")) := by
  have hform : buildexpressTop (.clist []) "bool" nm (some v) false =
      (match (match pyParseFloat v with
        | some q =>
          Except.ok (PyVal.vbool (if pytrunc q = 0 then false else true))
        | none =>
          if pyLower v = "false" ∨ pyLower v = "no" ∨ pyLower v = "off" then
            Except.ok (PyVal.vbool false)
          else if pyLower v = "true" ∨ pyLower v = "yes" ∨ pyLower v = "on" then
            Except.ok (PyVal.vbool true)
          else Except.error (PyErr.illegalBool (pyLower v))) with
       | .error e => .error e
       | .ok coerced => .ok (.clist [coerced], [])) := rfl
  refine ⟨?_, ?_, ?_, ?_, rfl, rfl, rfl, rfl, rfl⟩
  · intro q hq
    rw [hform, hq]
  · intro hp hmem
    rw [hform, hp]
    simp only [if_pos hmem]
  · intro hp hmem
    have hnf : ¬ (pyLower v = "false" ∨ pyLower v = "no" ∨ pyLower v = "off") := by
      rintro (h | h | h) <;> rcases hmem with hm | hm | hm <;>
        exact absurd (h.symm.trans hm) (by decide)
    rw [hform, hp]
    rw [if_neg hnf, if_pos hmem]
  · intro hp hnf hnt
    rw [hform, hp]
    rw [if_neg hnf, if_neg hnt]

/-- C7 (witness): the numeric branch of the characterization applied to
the value 0. -/
theorem buildbool_c7_witness :
    buildexpressTop (.clist []) "bool" "x" (some "0") false =
      .ok (.clist [.vbool false], []) := by
  have h := (buildbool_c7 "0" "x").1 ⟨0, 1⟩ rfl
  exact h

/-! Claim C3. -/



/-- C3 (counterexample): a non-blank non-comment data row whose only
populated column fails the sign filter is NOT appended to the item
sequence — the resulting item list is empty, not a singleton empty item:
the source appends only when the bound item dict is truthy. -/
theorem exportitemsheet_c3_counterexample :
    exportitemsheet ctxC3 sheetC3 = .ok ([], [], []) ∧
      pyStripWs "1" ≠ "" ∧
      issignmatch (some "t") "s" = false := by
  refine ⟨rfl, by decide, rfl⟩

/-- Row-level invariant: a single item-sheet row step never adds an empty
item. -/
theorem itemRowStep_nonempty (ti : List TitleInfo) (ncols : Nat)
    (st st2 : ItemState) (row : List String)
    (h : itemRowStep ti ncols st row = .cont st2 ∨
         itemRowStep ti ncols st row = .stop st2)
    (hP : ∀ it ∈ st.items, it ≠ []) :
    ∀ it ∈ st2.items, it ≠ [] := by
  unfold itemRowStep at h
  cases hc : pyCell row 0 with
  | error e => rw [hc] at h; rcases h with h | h <;> cases h
  | ok c0 =>
    rw [hc] at h
    dsimp only at h
    by_cases hb : pyStripWs c0 = ""
    · rw [if_pos hb] at h
      by_cases hsp : st.space + 1 ≥ spacemaxrowcount
      · rw [if_pos hsp] at h
        rcases h with h | h <;> cases h <;> exact hP
      · rw [if_neg hsp] at h
        rcases h with h | h <;> cases h <;> exact hP
    · rw [if_neg hb] at h
      by_cases hcm : (pyStripWs c0).toList.head? = some '#'
      · rw [if_pos hcm] at h
        rcases h with h | h <;> cases h <;> exact hP
      · rw [if_neg hcm] at h
        cases hcl : itemColLoop ti row (List.range ncols) [] st.space st.cs with
        | error e => rw [hcl] at h; rcases h with h | h <;> cases h
        | ok res =>
          rw [hcl] at h
          rcases h with h | h
          · cases h
            intro it hit
            dsimp only at hit
            by_cases he : res.1.isEmpty
            · rw [if_pos he] at hit
              exact hP it hit
            · rw [if_neg he] at hit
              rcases List.mem_append.mp hit with hit | hit
              · exact hP it hit
              · have hi : it = res.1 := List.mem_singleton.mp hit
                rw [hi]
                intro hcontra
                exact he (by rw [hcontra]; rfl)
          · cases h

/-- Early-stopping row folds preserve any step-invariant. -/
theorem foldRows_inv {σ : Type} (P : σ → Prop)
    (step : σ → List String → RowStep σ)
    (hstep : ∀ st r st2, (step st r = .cont st2 ∨ step st r = .stop st2) →
      P st → P st2) :
    ∀ rows st st2, foldRows step st rows = .ok st2 → P st → P st2 := by
  intro rows
  induction rows with
  | nil =>
    intro st st2 h hP
    cases h
    exact hP
  | cons r rest ih =>
    intro st st2 h hP
    unfold foldRows at h
    cases hs : step st r with
    | fail e => rw [hs] at h; dsimp only at h; exact absurd h (by simp)
    | stop s2 =>
      rw [hs] at h
      dsimp only at h
      injection h with h2
      subst h2
      exact hstep st r _ (Or.inr hs) hP
    | cont s2 =>
      rw [hs] at h
      dsimp only at h
      exact ih s2 st2 h (hstep st r s2 (Or.inl hs) hP)

/-- C3 (amended): a non-blank non-comment row with no populated columns
under the active sign filter is skipped, not appended: every item in the
output item sequence of an item sheet is non-empty (a row is appended only
when at least one column bound a value into it). -/
theorem exportitemsheet_c3_amended (ctx : ExpCtx) (sheet : Sheet)
    (sc : Item) (items : List Item) (cs : List Constraint)
    (h : exportitemsheet ctx sheet = .ok (sc, items, cs)) :
    ∀ it ∈ items, it ≠ [] := by
  unfold exportitemsheet at h
  cases h0 : rowValues sheet 0 with
  | error e => rw [h0] at h; dsimp only at h; exact absurd h (by simp)
  | ok descriptions =>
  rw [h0] at h
  cases h1 : rowValues sheet 1 with
  | error e => rw [h1] at h; dsimp only at h; exact absurd h (by simp)
  | ok types =>
  rw [h1] at h
  cases h2 : rowValues sheet 2 with
  | error e => rw [h2] at h; dsimp only at h; exact absurd h (by simp)
  | ok names =>
  rw [h2] at h
  cases h3 : rowValues sheet 3 with
  | error e => rw [h3] at h; dsimp only at h; exact absurd h (by simp)
  | ok signs =>
  rw [h3] at h
  dsimp only at h
  cases h4 : titleLoop ctx descriptions types names signs
      (List.range sheet.ncols) [] (.cdict []) with
  | error e => rw [h4] at h; dsimp only at h; exact absurd h (by simp)
  | ok ts =>
  rw [h4] at h
  dsimp only at h
  cases h5 : foldRows (itemRowStep ts.1 sheet.ncols) ⟨0, [], []⟩
      (sheet.rows.drop 4) with
  | error e => rw [h5] at h; dsimp only at h; exact absurd h (by simp)
  | ok st =>
  rw [h5] at h
  dsimp only at h
  have hinv := foldRows_inv (fun s => ∀ it ∈ s.items, it ≠ [])
    (itemRowStep ts.1 sheet.ncols)
    (fun st r st2 hh hP => itemRowStep_nonempty ts.1 sheet.ncols st st2 r hh hP)
    (sheet.rows.drop 4) ⟨0, [], []⟩ st h5 (by intro it hit; cases hit)
  cases hsc : ts.2 with
  | cdict kvs =>
    rw [hsc] at h
    dsimp only at h
    injection h with h2
    have hitems : st.items = items := congrArg (fun p => p.2.1) h2
    rw [← hitems]
    exact hinv
  | clist xs => rw [hsc] at h; dsimp only at h; exact absurd h (by simp)

/-- C3 (witness): the amended theorem applied to a concrete sheet whose
single bound row produces a non-empty item. -/
theorem exportitemsheet_c3_amended_witness :
    exportitemsheet ⟨none, false⟩
        ⟨"s|Hero", 1, [["d"], ["int"], ["id"], [""], ["1"]]⟩ =
      .ok ([], [[("id", PyVal.vint 1)]], []) ∧
    ([("id", PyVal.vint 1)] : Item) ≠ [] := by
  refine ⟨rfl, ?_⟩
  have h := exportitemsheet_c3_amended ⟨none, false⟩
    ⟨"s|Hero", 1, [["d"], ["int"], ["id"], [""], ["1"]]⟩
    [] [[("id", PyVal.vint 1)]] [] rfl
  exact h [("id", PyVal.vint 1)] (by simp)


/-! Claims C6 and C10: constraint resolution. -/

/-- When every item carries the field and some item matches, the scan
reports a match. -/
theorem nextMatchField_found (field : String) (v : PyVal) :
    ∀ items : List Item, (∀ it ∈ items, (dictGet it field).isSome) →
    (∃ it ∈ items, ∃ w, dictGet it field = some w ∧ pyEq w v = true) →
    nextMatchField field v items = .ok true := by
  intro items
  induction items with
  | nil =>
    rintro _ ⟨it, hmem, _⟩
    cases hmem
  | cons it0 rest ih =>
    rintro hsome ⟨it, hmem, w, hw, hpe⟩
    unfold nextMatchField
    cases hg : dictGet it0 field with
    | none =>
      have := hsome it0 (by simp)
      rw [hg] at this
      simp at this
    | some w0 =>
      dsimp only
      by_cases hpe0 : pyEq w0 v = true
      · rw [if_pos hpe0]
      · rw [if_neg hpe0]
        apply ih (fun x hx => hsome x (by simp [hx]))
        rcases List.mem_cons.mp hmem with heq | hmem2
        · subst heq
          rw [hw] at hg
          injection hg with hg2
          rw [hg2] at hpe
          exact absurd hpe hpe0
        · exact ⟨it, hmem2, w, hw, hpe⟩

/-- When every item carries the field and none matches, the scan reports
no match. -/
theorem nextMatchField_nomatch (field : String) (v : PyVal) :
    ∀ items : List Item,
    (∀ it ∈ items, ∃ w, dictGet it field = some w ∧ pyEq w v = false) →
    nextMatchField field v items = .ok false := by
  intro items
  induction items with
  | nil => intro _; rfl
  | cons it0 rest ih =>
    intro hall
    obtain ⟨w0, hw0, hpe0⟩ := hall it0 (by simp)
    unfold nextMatchField
    rw [hw0]
    dsimp only
    rw [if_neg (by rw [hpe0]; exact Bool.false_ne_true)]
    exact ih (fun x hx => hall x (by simp [hx]))

/-- An item lacking the field that is reached before any match makes the
scan raise KeyError. -/
theorem nextMatchField_keyerr (field : String) (v : PyVal) :
    ∀ (pre : List Item) (bad : Item) (rest : List Item),
    (∀ it ∈ pre, ∃ w, dictGet it field = some w ∧ pyEq w v = false) →
    dictGet bad field = none →
    nextMatchField field v (pre ++ bad :: rest) = .error (.keyError field) := by
  intro pre
  induction pre with
  | nil =>
    intro bad rest _ hbad
    unfold nextMatchField
    rw [List.nil_append]
    dsimp only
    rw [hbad]
  | cons it0 pre2 ih =>
    intro bad rest hall hbad
    obtain ⟨w0, hw0, hpe0⟩ := hall it0 (by simp)
    rw [List.cons_append]
    unfold nextMatchField
    rw [hw0]
    dsimp only
    rw [if_neg (by rw [hpe0]; exact Bool.false_ne_true)]
    exact ih bad rest (fun x hx => hall x (by simp [hx])) hbad

/-- Records whose data tree is a non-empty item list are truthy. -/
theorem recObjTruthy_items (xs : List Item) (hne : xs ≠ []) :
    recObjTruthy (some (.items xs)) = true := by
  cases xs with
  | nil => exact absurd rfl hne
  | cons a rest => rfl

/-- C6 (amended): for a pending constraint, a missing target mark fails
with ConstraintMarkNotFound; when the target Record is materialized with a
non-empty item sequence whose items all carry the declared field,
resolution succeeds iff some item's field equals the asserted value and
fails with ConstraintFieldNotFound otherwise; when the Record's data slot
is falsy it is first rebuilt by re-running the item-sheet binding pass on
the Record's sheet, and the same scan applies to the rebuilt items (the
precondition that scanned items carry the field is what the original
claim lacked: without it the lookup raises an unhandled KeyError, see the
C10 theorems). -/
theorem checkconstraint1_c6_amended (ctx : ExpCtx) (recs : List Record)
    (c : Constraint) :
    ((∀ r ∈ recs, r.item ≠ some c.mark) →
      checkconstraint1 ctx recs c = .error (.markNotFound c.mark))
  ∧ (∀ idx r items, recFindIdx recs c.mark = some idx →
      recs.get? idx = some r → r.obj = some (.items items) → items ≠ [] →
      (∀ it ∈ items, (dictGet it c.field).isSome) →
      (((∃ it ∈ items, ∃ w, dictGet it c.field = some w ∧
            pyEq w c.value = true) →
          checkconstraint1 ctx recs c = .ok (recs, [])) ∧
       ((∀ it ∈ items, ∀ w, dictGet it c.field = some w →
            pyEq w c.value = false) →
          checkconstraint1 ctx recs c = .error (.fieldNotFound c.field))))
  ∧ (∀ idx r sc items ncs, recFindIdx recs c.mark = some idx →
      recs.get? idx = some r → recObjTruthy r.obj = false →
      exportitemsheet ctx r.sheet = .ok (sc, items, ncs) →
      (∀ it ∈ items, (dictGet it c.field).isSome) →
      (((∃ it ∈ items, ∃ w, dictGet it c.field = some w ∧
            pyEq w c.value = true) →
          checkconstraint1 ctx recs c =
            .ok (recs.set idx
              { r with schema := some sc, obj := some (.items items) }, ncs)) ∧
       ((∀ it ∈ items, ∀ w, dictGet it c.field = some w →
            pyEq w c.value = false) →
          checkconstraint1 ctx recs c = .error (.fieldNotFound c.field)))) := by
  refine ⟨?_, ?_, ?_⟩
  · intro hnone
    have hfind : recFindIdx recs c.mark = none := by
      unfold recFindIdx
      rw [List.findIdx?_eq_none_iff]
      intro r hr
      simp [hnone r hr]
    unfold checkconstraint1
    rw [hfind]
  · intro idx r items hfind hget hobj hne hsome
    have htr : recObjTruthy r.obj = true := by
      rw [hobj]; exact recObjTruthy_items items hne
    constructor
    · rintro hex
      unfold checkconstraint1
      rw [hfind]
      dsimp only
      rw [hget]
      dsimp only
      rw [if_pos htr, hobj]
      dsimp only
      rw [nextMatchField_found c.field c.value items hsome hex]
    · intro hno
      have hall : ∀ it ∈ items, ∃ w, dictGet it c.field = some w ∧
          pyEq w c.value = false := by
        intro it hit
        obtain ⟨w, hw⟩ := Option.isSome_iff_exists.mp (hsome it hit)
        exact ⟨w, hw, hno it hit w hw⟩
      unfold checkconstraint1
      rw [hfind]
      dsimp only
      rw [hget]
      dsimp only
      rw [if_pos htr, hobj]
      dsimp only
      rw [nextMatchField_nomatch c.field c.value items hall]
  · intro idx r sc items ncs hfind hget hfalsy hexp hsome
    constructor
    · rintro hex
      unfold checkconstraint1
      rw [hfind]
      dsimp only
      rw [hget]
      dsimp only
      rw [if_neg (by rw [hfalsy]; exact Bool.false_ne_true), hexp]
      dsimp only
      rw [nextMatchField_found c.field c.value items hsome hex]
    · intro hno
      have hall : ∀ it ∈ items, ∃ w, dictGet it c.field = some w ∧
          pyEq w c.value = false := by
        intro it hit
        obtain ⟨w, hw⟩ := Option.isSome_iff_exists.mp (hsome it hit)
        exact ⟨w, hw, hno it hit w hw⟩
      unfold checkconstraint1
      rw [hfind]
      dsimp only
      rw [hget]
      dsimp only
      rw [if_neg (by rw [hfalsy]; exact Bool.false_ne_true), hexp]
      dsimp only
      rw [nextMatchField_nomatch c.field c.value items hall]


/-- C6 (counterexample): the claim says resolution succeeds iff some item
has the declared field equal to the asserted value and otherwise fails
with ConstraintFieldNotFound; here an item with id equal two exists, yet
resolution raises an unhandled KeyError because an earlier item lacks the
field — neither success nor ConstraintFieldNotFound. -/
theorem checkconstraint1_c6_counterexample :
    checkconstraint1 ⟨none, false⟩ [recC6] ⟨"Hero", "id", .vint 2⟩ =
        .error (.keyError "id") ∧
      ([("id", PyVal.vint 2)] : Item) ∈
        [[("x", PyVal.vint 1)], [("id", PyVal.vint 2)]] ∧
      dictGet [("id", PyVal.vint 2)] "id" = some (.vint 2) ∧
      pyEq (.vint 2) (.vint 2) = true := by
  refine ⟨rfl, by simp, rfl, rfl⟩


/-- C6 (witness): the materialized-record conjunct applied to a record
whose items all carry the field and whose second item matches. -/
theorem checkconstraint1_c6_witness :
    checkconstraint1 ⟨none, false⟩ [recC6ok] ⟨"Hero", "id", .vint 2⟩ =
      .ok ([recC6ok], []) := by
  have hsome : ∀ it ∈ [[("id", PyVal.vint 1)], [("id", PyVal.vint 2)]],
      (dictGet it "id").isSome := by
    intro it hit
    simp only [List.mem_cons, List.not_mem_nil, or_false] at hit
    rcases hit with rfl | rfl
    · rfl
    · rfl
  have h := ((checkconstraint1_c6_amended ⟨none, false⟩ [recC6ok]
    ⟨"Hero", "id", .vint 2⟩).2.1 0 recC6ok
    [[("id", PyVal.vint 1)], [("id", PyVal.vint 2)]]
    rfl rfl rfl (by simp) hsome).1
    ⟨[("id", PyVal.vint 2)], by simp, .vint 2, rfl, rfl⟩
  exact h

/-- C10 (amended): the constraint scan reads items in order and
short-circuits at the first match; an item lacking the declared field
raises an unhandled KeyError only when it is reached before any matching
item — every item scanned before the first match must carry the field. -/
theorem checkconstraint1_c10_amended (ctx : ExpCtx) (recs : List Record)
    (c : Constraint) (idx : Nat) (r : Record) (pre : List Item) (bad : Item)
    (rest : List Item)
    (h1 : recFindIdx recs c.mark = some idx)
    (h2 : recs.get? idx = some r)
    (h3 : r.obj = some (.items (pre ++ bad :: rest)))
    (h4 : ∀ it ∈ pre, ∃ w, dictGet it c.field = some w ∧
      pyEq w c.value = false)
    (h5 : dictGet bad c.field = none) :
    checkconstraint1 ctx recs c = .error (.keyError c.field) := by
  have htr : recObjTruthy r.obj = true := by
    rw [h3]
    apply recObjTruthy_items
    cases pre <;> simp
  unfold checkconstraint1
  rw [h1]
  dsimp only
  rw [h2]
  dsimp only
  rw [if_pos htr, h3]
  dsimp only
  rw [nextMatchField_keyerr c.field c.value pre bad rest h4 h5]


/-- C10 (counterexample): the claim says the scan reads the declared field
of every item unconditionally, so a target Record containing an item
lacking the field fails with an unhandled key error; but the scan
short-circuits at the first match, so this record with a field-less second
item resolves successfully. -/
theorem checkconstraint1_c10_counterexample :
    checkconstraint1 ⟨none, false⟩ [recC10] ⟨"Hero", "id", .vint 2⟩ =
        .ok ([recC10], []) ∧
      ([] : Item) ∈ [[("id", PyVal.vint 2)], ([] : Item)] ∧
      dictGet ([] : Item) "id" = none := by
  refine ⟨rfl, by simp, rfl⟩

/-- C10 (witness): the amended KeyError characterization applied to a
record whose first item lacks the field. -/
theorem checkconstraint1_c10_witness :
    checkconstraint1 ⟨none, false⟩ [recC6] ⟨"Hero", "id", .vint 3⟩ =
      .error (.keyError "id") := by
  have h := checkconstraint1_c10_amended ⟨none, false⟩ [recC6]
    ⟨"Hero", "id", .vint 3⟩ 0 recC6 [] [("x", PyVal.vint 1)]
    [[("id", PyVal.vint 2)]]
    rfl rfl rfl (by intro it hit; cases hit) rfl
  exact h


/-! Claim C8. -/


/-- C8 (counterexample): the claim says the blank counter, the comment
rule and the sign filter work in config sheets with the same semantics as
in item-list sheets; each of the three diverges.  A config-sheet comment
row carrying a type resets the blank counter to zero while an item-sheet
comment row leaves the counter untouched; a config row lacking name and
type but carrying a value is skipped without counting as blank padding;
a sign-failing config row is skipped wholesale (counter untouched) while
an item sheet still resets the counter on a sign-failing populated
column; and when the sign title sits in column zero the config filter is
never consulted, so a row whose sign fails the active filter is bound
anyway. -/
theorem configRowStep_c8_counterexample :
    configRowStep ⟨none, false⟩ tiStd ⟨2, [], [], []⟩
        ["#c", "", "int", "", ""] = .cont ⟨0, [], [], []⟩ ∧
      itemRowStep [("int", "id", true)] 1 ⟨2, [], []⟩ ["#c"] =
        .cont ⟨2, [], []⟩ ∧
      configRowStep ⟨none, false⟩ tiStd ⟨2, [], [], []⟩
        ["", "5", "", "", ""] = .cont ⟨2, [], [], []⟩ ∧
      configRowStep ⟨some "t", false⟩ tiStd ⟨2, [], [], []⟩
        ["speed", "3", "int", "s", ""] = .cont ⟨2, [], [], []⟩ ∧
      itemRowStep [("int", "speed", false)] 1 ⟨2, [], []⟩ ["3"] =
        .cont ⟨0, [], []⟩ ∧
      configRowStep ⟨some "t", false⟩ ⟨1, 2, 3, 0, 4⟩ ⟨0, [], [], []⟩
        ["s", "speed", "3", "int", ""] =
          .cont ⟨0, [], [("speed", PyVal.vint 3)], []⟩ ∧
      issignmatch (some "t") "s" = false := by
  exact ⟨rfl, rfl, rfl, rfl, rfl, rfl, rfl⟩

/-- C8 (amended): the config-sheet row rules, as the code implements them:
a row is consulted against the sign filter only when the sign column index
is positive; a sign-passing row with name, value and type all blank
increments the blank counter and stops the sheet at three; a row with a
name and a type resets the blank counter to zero even when the name marks
a comment (unlike item-list sheets, where comment rows never touch the
counter); a row that is neither fully blank nor carrying both name and
type is skipped without touching the counter. -/
theorem configRowStep_c8_amended (ctx : ExpCtx) (ti : ConfigIdx)
    (st : ConfigState) (row : List String)
    (ncell vcell tcell dcell : String)
    (hn : pyIndex row ti.nameindex = .ok ncell)
    (hv : pyIndex row ti.valueindex = .ok vcell)
    (ht : pyIndex row ti.typeindex = .ok tcell)
    (hd : pyIndex row ti.descriptionindex = .ok dcell) :
    (∀ scell, ti.signindex > 0 → pyIndex row ti.signindex = .ok scell →
      issignmatch ctx.sign (pyStripWs scell) = false →
      configRowStep ctx ti st row = .cont st)
  ∧ ((ti.signindex > 0 → ∃ scell,
      pyIndex row ti.signindex = .ok scell ∧
        issignmatch ctx.sign (pyStripWs scell) = true) →
    ((pyStripWs ncell = "" ∧ pyStripWs vcell = "" ∧ pyStripWs tcell = "" →
        configRowStep ctx ti st row =
          (if st.space + 1 ≥ spacemaxrowcount then
            .stop { st with space := st.space + 1 }
          else .cont { st with space := st.space + 1 }))
  ∧ (pyStripWs ncell ≠ "" → pyStripWs tcell ≠ "" →
      (pyStripWs ncell).toList.head? = some '#' →
        configRowStep ctx ti st row = .cont { st with space := 0 })
  ∧ (¬ (pyStripWs ncell = "" ∧ pyStripWs vcell = "" ∧ pyStripWs tcell = "") →
      (pyStripWs ncell = "" ∨ pyStripWs tcell = "") →
        configRowStep ctx ti st row = .cont st))) := by
  constructor
  · intro scell hgt hs hfail
    unfold configRowStep
    rw [hn]
    dsimp only
    rw [hv]
    dsimp only
    rw [ht]
    dsimp only
    rw [hd]
    dsimp only
    rw [if_pos hgt, hs]
    dsimp only
    rw [hfail]
    rfl
  intro hsign
  have hred : configRowStep ctx ti st row =
      (if pyStripWs ncell = "" ∧ pyStripWs vcell = "" ∧ pyStripWs tcell = "" then
        (if st.space + 1 ≥ spacemaxrowcount then
          RowStep.stop { st with space := st.space + 1 }
        else RowStep.cont { st with space := st.space + 1 })
      else if pyStripWs ncell ≠ "" ∧ pyStripWs tcell ≠ "" then
        (match (if (pyStripWs ncell).toList.head? ≠ some '#' then
            (match (if ctx.codegenerator then
                (match buildexpressTop (.cdict st.schema) (pyStripWs tcell)
                    (pyStripWs ncell) (some (pyStripWs dcell)) true with
                 | .error e => .error e
                 | .ok (.cdict kvs, _) => .ok kvs
                 | .ok (.clist _, _) => .error .typeError) else .ok st.schema :
                Except PyErr Item) with
             | .error e => .error e
             | .ok schema2 =>
               if pyStripWs vcell ≠ "" then
                 (match buildexpressTop (.cdict st.obj) (pyStripWs tcell)
                     (pyStripWs ncell) (some (pyStripWs vcell)) false with
                  | .error e => .error e
                  | .ok (.cdict obj2, ncs) => .ok (schema2, obj2, st.cs ++ ncs)
                  | .ok (.clist _, _) => .error .typeError)
               else .ok (schema2, st.obj, st.cs))
          else .ok (st.schema, st.obj, st.cs) :
            Except PyErr (Item × Item × List Constraint)) with
         | .error e => RowStep.fail e
         | .ok (schema2, obj2, cs2) =>
           RowStep.cont
             { space := 0, schema := schema2, obj := obj2, cs := cs2 })
      else RowStep.cont st) := by
    unfold configRowStep
    rw [hn]
    dsimp only
    rw [hv]
    dsimp only
    rw [ht]
    dsimp only
    rw [hd]
    dsimp only
    by_cases hgt : ti.signindex > 0
    · obtain ⟨scell, hs1, hs2⟩ := hsign hgt
      rw [if_pos hgt, hs1]
      dsimp only
      rw [hs2]
      rfl
    · rw [if_neg hgt]
  refine ⟨?_, ?_, ?_⟩
  · intro hb
    rw [hred, if_pos hb]
  · intro hn1 ht1 hcm
    rw [hred, if_neg (fun hcon => hn1 hcon.1), if_pos ⟨hn1, ht1⟩]
    rw [if_neg (fun hcon => hcon hcm)]
  · intro hnb hor
    rw [hred, if_neg hnb]
    rw [if_neg (by
      rintro ⟨hn2, ht2⟩
      rcases hor with hor | hor
      · exact hn2 hor
      · exact ht2 hor)]

/-- C8 (witness): the comment-row conjunct of the amended rules applied to
a concrete row: the blank counter drops from one to zero. -/
theorem configRowStep_c8_witness :
    configRowStep ⟨none, false⟩ tiStd ⟨1, [], [], []⟩
      ["#z", "", "double", "", ""] = .cont ⟨0, [], [], []⟩ := by
  have h := ((configRowStep_c8_amended ⟨none, false⟩ tiStd ⟨1, [], [], []⟩
    ["#z", "", "double", "", ""] "#z" "" "double" ""
    rfl rfl rfl rfl).2
    (fun _ => ⟨"", rfl, rfl⟩)).2.1
    (by decide) (by decide) (by decide)
  exact h


/-! Claim C9. -/

/-- Appending a record whose root clashes with no registered root
preserves pairwise root distinctness. -/
theorem pairwise_root_append (recs : List Record) (rec : Record)
    (hP : recs.Pairwise (fun a b => a.root ≠ b.root))
    (hany : recs.any (fun r => r.root = rec.root) = false) :
    (recs ++ [rec]).Pairwise (fun a b => a.root ≠ b.root) := by
  rw [List.pairwise_append]
  refine ⟨hP, List.pairwise_singleton _ _, ?_⟩
  intro a ha b hb
  rw [List.mem_singleton.mp hb]
  intro hcontra
  rw [List.any_eq_false] at hany
  exact hany a ha (by simp [hcontra])

/-- The per-sheet body preserves pairwise root distinctness of the
registry. -/
theorem processSheet_pairwise (ctx : Ctx) (stale : String → String → Bool)
    (path : String) (st : ExpState) (sheet : Sheet) (st2 : ExpState)
    (h : processSheet ctx stale path st sheet = .ok st2)
    (hP : st.records.Pairwise (fun a b => a.root ≠ b.root)) :
    st2.records.Pairwise (fun a b => a.root ≠ b.root) := by
  unfold processSheet at h
  cases hm : getexportmark sheet.name with
  | none =>
    rw [hm] at h
    dsimp only at h
    injection h with h2
    subst h2
    exact hP
  | some mark =>
    rw [hm] at h
    dsimp only at h
    cases hcfg : getconfigsheetfinfo sheet with
    | error e => rw [hcfg] at h; dsimp only at h; exact absurd h (by simp)
    | ok cfgInfo =>
      rw [hcfg] at h
      dsimp only at h
      cases cfgInfo with
      | none =>
        dsimp only at h
        by_cases hany : st.records.any
            (fun r => r.root = mark ++ "s" ++ ctx.extension.getD "") = true
        · rw [if_pos hany] at h
          exact absurd h (by simp)
        · rw [if_neg hany] at h
          cases hE : runSheetExporter ctx stale path
              (gerexportfilename (mark ++ "s" ++ ctx.extension.getD "")
                ctx.format ctx.folder) none sheet with
          | error e => rw [hE] at h; dsimp only at h; exact absurd h (by simp)
          | ok pr =>
            rw [hE] at h
            dsimp only at h
            injection h with h2
            subst h2
            dsimp only
            exact pairwise_root_append st.records _ hP
              (Bool.eq_false_iff.mpr (fun hx => hany hx))
      | some ti =>
        dsimp only at h
        by_cases hany : st.records.any
            (fun r => r.root = mark ++ ctx.extension.getD "") = true
        · rw [if_pos hany] at h
          exact absurd h (by simp)
        · rw [if_neg hany] at h
          cases hE : runSheetExporter ctx stale path
              (gerexportfilename (mark ++ ctx.extension.getD "")
                ctx.format ctx.folder) (some ti) sheet with
          | error e => rw [hE] at h; dsimp only at h; exact absurd h (by simp)
          | ok pr =>
            rw [hE] at h
            dsimp only at h
            injection h with h2
            subst h2
            dsimp only
            exact pairwise_root_append st.records _ hP
              (Bool.eq_false_iff.mpr (fun hx => hany hx))

/-- Sheet iteration preserves pairwise root distinctness. -/
theorem processSheets_pairwise (ctx : Ctx) (stale : String → String → Bool)
    (path : String) :
    ∀ (sheets : List Sheet) (st st2 : ExpState),
    processSheets ctx stale path st sheets = .ok st2 →
    st.records.Pairwise (fun a b => a.root ≠ b.root) →
    st2.records.Pairwise (fun a b => a.root ≠ b.root) := by
  intro sheets
  induction sheets with
  | nil =>
    intro st st2 h hP
    injection h with h2
    subst h2
    exact hP
  | cons s rest ih =>
    intro st st2 h hP
    unfold processSheets at h
    cases hs : processSheet ctx stale path st s with
    | error e => rw [hs] at h; dsimp only at h; exact absurd h (by simp)
    | ok stm =>
      rw [hs] at h
      dsimp only at h
      exact ih stm st2 h (processSheet_pairwise ctx stale path st s stm hs hP)

/-- Path processing preserves pairwise root distinctness. -/
theorem processPath_pairwise (ctx : Ctx) (stale : String → String → Bool)
    (wb : List (String × List Sheet)) (st : ExpState) (p : String)
    (st2 : ExpState) (h : processPath ctx stale wb st p = .ok st2)
    (hP : st.records.Pairwise (fun a b => a.root ≠ b.root)) :
    st2.records.Pairwise (fun a b => a.root ≠ b.root) := by
  unfold processPath at h
  by_cases hp : p = ""
  · rw [if_pos hp] at h
    injection h with h2
    subst h2
    exact hP
  · rw [if_neg hp] at h
    by_cases hany : st.records.any (fun r => r.path = p) = true
    · rw [if_pos hany] at h
      exact absurd h (by simp)
    · rw [if_neg hany] at h
      cases hf : wb.find? (fun pr => pr.1 = p) with
      | none => rw [hf] at h; dsimp only at h; exact absurd h (by simp)
      | some pr =>
        rw [hf] at h
        dsimp only at h
        exact processSheets_pairwise ctx stale p pr.2 st st2 h hP

/-- Path iteration preserves pairwise root distinctness. -/
theorem processPaths_pairwise (ctx : Ctx) (stale : String → String → Bool)
    (wb : List (String × List Sheet)) :
    ∀ (ps : List String) (st st2 : ExpState),
    processPaths ctx stale wb st ps = .ok st2 →
    st.records.Pairwise (fun a b => a.root ≠ b.root) →
    st2.records.Pairwise (fun a b => a.root ≠ b.root) := by
  intro ps
  induction ps with
  | nil =>
    intro st st2 h hP
    injection h with h2
    subst h2
    exact hP
  | cons p rest ih =>
    intro st st2 h hP
    unfold processPaths at h
    cases hs : processPath ctx stale wb st p with
    | error e => rw [hs] at h; dsimp only at h; exact absurd h (by simp)
    | ok stm =>
      rw [hs] at h
      dsimp only at h
      exact ih stm st2 h
        (processPath_pairwise ctx stale wb st p stm hs hP)

/-- C9 (amended): after any successful collection phase no two registered
Records share an output root key; processing a sheet whose computed root
equals an already-registered Record's root raises DuplicateRoot (and so
the new Record is never registered); an input path equal to an already
registered Record's path raises DuplicatePath before any of its sheets
are processed; however two export-marked sheets within the same input
file register Records sharing that file's path, so the path-uniqueness
half of the claimed invariant does not hold record-for-record. -/
theorem exportRun_c9_amended (ctx : Ctx) (wb : List (String × List Sheet))
    (stale : String → String → Bool) :
    (∀ pathstr st2, exportRun ctx wb stale pathstr = .ok st2 →
      st2.records.Pairwise (fun a b => a.root ≠ b.root))
  ∧ (∀ (st : ExpState) (sheet : Sheet) (path mark : String)
      (cfgInfo : Option ConfigIdx) (root : String),
      getexportmark sheet.name = some mark →
      getconfigsheetfinfo sheet = .ok cfgInfo →
      root = (match cfgInfo with
        | none => mark ++ "s" ++ ctx.extension.getD ""
        | some _ => mark ++ ctx.extension.getD "") →
      (∃ r ∈ st.records, r.root = root) →
      processSheet ctx stale path st sheet = .error (.duplicateRoot root))
  ∧ (∀ (st : ExpState) (p : String), p ≠ "" →
      (∃ r ∈ st.records, r.path = p) →
      processPath ctx stale wb st p = .error (.duplicatePath p)) := by
  refine ⟨?_, ?_, ?_⟩
  · intro pathstr st2 h
    exact processPaths_pairwise ctx stale wb _ ⟨[], []⟩ st2 h List.Pairwise.nil
  · rintro st sheet path mark cfgInfo root hm hcfg hroot ⟨r, hr, hrr⟩
    unfold processSheet
    rw [hm]
    dsimp only
    rw [hcfg]
    dsimp only
    cases cfgInfo with
    | none =>
      dsimp only at hroot
      rw [if_pos (List.any_eq_true.mpr ⟨r, hr, by simp [hrr, hroot]⟩)]
      rw [hroot]
    | some ti =>
      dsimp only at hroot
      rw [if_pos (List.any_eq_true.mpr ⟨r, hr, by simp [hrr, hroot]⟩)]
      rw [hroot]
  · rintro st p hne ⟨r, hr, hrp⟩
    unfold processPath
    rw [if_neg hne]
    rw [if_pos (List.any_eq_true.mpr ⟨r, hr, by simp [hrp]⟩)]



/-- C9 (counterexample): one input file containing two export-marked
sheets registers two distinct Records (roots Aas and Bbs) sharing the
same source path — the claimed invariant that no two registered Records
share a source path fails, because the duplicate-path check runs once per
input file, before its sheets are processed. -/
theorem exportRun_c9_counterexample :
    (exportRun ctxC9 wbC9 (fun _ _ => true) "f").map
        (fun st => st.records.map fun r => (r.path, r.root)) =
      .ok [("f", "Aas"), ("f", "Bbs")] ∧
    ("Aas" : String) ≠ "Bbs" := by
  exact ⟨rfl, by decide⟩

/-- C9 (witness): the root-distinctness half applied to the concrete
two-sheet run. -/
theorem exportRun_c9_witness :
    (match exportRun ctxC9 wbC9 (fun _ _ => true) "f" with
     | .ok st2 => st2.records.Pairwise (fun a b => a.root ≠ b.root)
     | .error _ => False) := by
  exact (exportRun_c9_amended ctxC9 wbC9 (fun _ _ => true)).1 "f" _ rfl

end Proton
